import Mathlib

/-!
Verification development for the jobsAI backend (shallow embedding).

The Python sources are embedded as executable Lean definitions:

* `src/bulk_import.py`   — `clean_text_field`, `parse_posted_on`, `create_job_key`,
  `load_existing_jobs`, `import_jobs_bulk` (state passed explicitly; the
  duplicate-load `SELECT`, the database writes and `datetime.strptime` are
  supplied as explicit environment oracles,
  and a Python exception raised by a fallible call is modelled by the oracle
  returning `none` / `false`).
* `src/image_processor.py` — `_normalize_domain`, `_save_bytes_atomic`
  (as a trace of file-system operations), `find_or_create_file` and the
  `DynamicStaticFiles.__call__` dispatch (file system and HTTP client as
  explicit environment values).
* `src/api/job_router.py` — `create_job`, `update_job` and the bulk CSV endpoint
  wrapper (the `Job` ORM entity itself is not in the sources; it is modelled
  from the spec, see `Job` below).

Python `str` values are embedded as Lean `String`; `str.lower()` (ASCII range,
which is all the backend handles) is embedded via `Char.toLower`, whose Lean
definition is exactly the ASCII shift performed by CPython for ASCII input,
and `str.strip()` via `stripEnds pyIsSpace`.
-/

namespace JobsAI

/-- Python `str.lower()` (ASCII range). -/
def pyLower (s : String) : String := String.mk (s.data.map Char.toLower)

/-- The characters stripped by Python `str.strip()` (ASCII whitespace). -/
def pyIsSpace (c : Char) : Bool :=
  c = ' ' || c = '\t' || c = '\n' || c = '\r' || c = '\x0b' || c = '\x0c'

/-- Strip `p`-characters from both ends of a character list. -/
def stripEnds (p : Char → Bool) (l : List Char) : List Char :=
  ((l.dropWhile p).reverse.dropWhile p).reverse

/-- Python `str.strip()` with no argument. -/
def pyStrip (s : String) : String := String.mk (stripEnds pyIsSpace s.data)

/-- SQL `TRIM` (strips space characters only). -/
def sqlTrim (s : String) : String := String.mk (stripEnds (fun c => c = ' ') s.data)

/-- `clean_text_field` from `src/bulk_import.py` (lines 122–126):
`None` and `''` become `'Not specified'`, anything else is stripped. -/
def clean_text_field (value : Option String) : String :=
  match value with
  | none => "Not specified"
  | some v => if v = "" then "Not specified" else pyStrip v

/-- Lower-cased comparison of the first characters against `"https://"` /
`"http://"`: the effect of `re.sub(r"^https?://", "", n, flags=re.IGNORECASE)`
(the pattern is anchored, so at most one leading occurrence is removed). -/
def stripHttpScheme (l : List Char) : List Char :=
  if (l.take 8).map Char.toLower = "https://".data then l.drop 8
  else if (l.take 7).map Char.toLower = "http://".data then l.drop 7
  else l

/-- `_normalize_domain` from `src/image_processor.py` (lines 11–18):
strip, drop a leading scheme, keep the part before the first `/`, drop one
leading `www.` (case-sensitively, as in the Python), lower-case. -/
def normalize_domain (name : String) : String :=
  let n := stripEnds pyIsSpace name.data
  let n := stripHttpScheme n
  let n := n.takeWhile (fun c => !(c = '/'))
  let n := if "www.".data.isPrefixOf n then n.drop 4 else n
  String.mk (n.map Char.toLower)

example : normalize_domain "https://www.Example.com/logo" = "example.com" := by decide
example : normalize_domain "WWW.A" = "www.a" := by decide
example : normalize_domain (normalize_domain "WWW.A") = "a" := by decide

/-! ### Character-level facts about `Char.toLower` -/

theorem toNat_ofNat_of_le {n : Nat} (h : n ≤ 1000) : (Char.ofNat n).toNat = n := by
  rw [Char.ofNat, dif_pos (Or.inl (by omega : n < 55296))]
  rfl

theorem toLower_toNat_of_upper {c : Char} (h1 : 65 ≤ c.toNat) (h2 : c.toNat ≤ 90) :
    (Char.toLower c).toNat = c.toNat + 32 := by
  unfold Char.toLower
  rw [if_pos ⟨h1, h2⟩]
  exact toNat_ofNat_of_le (by omega)

theorem toLower_of_not_upper {c : Char} (h : ¬(65 ≤ c.toNat ∧ c.toNat ≤ 90)) :
    Char.toLower c = c := by
  unfold Char.toLower
  rw [if_neg h]

theorem toLower_idem (c : Char) : Char.toLower (Char.toLower c) = Char.toLower c := by
  by_cases h : 65 ≤ c.toNat ∧ c.toNat ≤ 90
  · have hn := toLower_toNat_of_upper h.1 h.2
    apply toLower_of_not_upper
    omega
  · rw [toLower_of_not_upper h, toLower_of_not_upper h]

theorem toLower_eq_slash {c : Char} (h : Char.toLower c = '/') : c = '/' := by
  by_cases hu : 65 ≤ c.toNat ∧ c.toNat ≤ 90
  · have hn := toLower_toNat_of_upper hu.1 hu.2
    rw [h] at hn
    have h47 : ('/').toNat = 47 := rfl
    omega
  · rw [toLower_of_not_upper hu] at h
    exact h

/-- If a lower-cased character list contains `'/'`, so did the original list. -/
theorem slash_mem_of_mem_map_toLower {l : List Char} (h : '/' ∈ l.map Char.toLower) :
    '/' ∈ l := by
  rcases List.mem_map.mp h with ⟨c, hc, hlow⟩
  rw [← toLower_eq_slash hlow]
  exact hc

/-- The result of `_normalize_domain` never contains a `'/'` character. -/
theorem normalize_domain_no_slash (s : String) : '/' ∉ (normalize_domain s).data := by
  intro hmem
  have h1 : '/' ∈ (if "www.".data.isPrefixOf
      ((stripHttpScheme (stripEnds pyIsSpace s.data)).takeWhile (fun c => !(c = '/'))) then
      ((stripHttpScheme (stripEnds pyIsSpace s.data)).takeWhile (fun c => !(c = '/'))).drop 4
    else
      ((stripHttpScheme (stripEnds pyIsSpace s.data)).takeWhile (fun c => !(c = '/')))) :=
    slash_mem_of_mem_map_toLower hmem
  have h2 : '/' ∈ (stripHttpScheme (stripEnds pyIsSpace s.data)).takeWhile
      (fun c => !(c = '/')) := by
    rcases Decidable.em ("www.".data.isPrefixOf
        ((stripHttpScheme (stripEnds pyIsSpace s.data)).takeWhile (fun c => !(c = '/'))) = true)
      with hpre | hpre
    · rw [if_pos hpre] at h1
      exact List.drop_subset 4 _ h1
    · rw [if_neg hpre] at h1
      exact h1
  have h3 := List.mem_takeWhile_imp h2
  simp at h3

/-- Not a prefix because some member of the candidate is missing. -/
theorem not_isPrefixOf_of_not_mem {l₁ l₂ : List Char} {c : Char}
    (hc : c ∈ l₁) (hmem : c ∉ l₂) : ¬(l₁.isPrefixOf l₂ = true) := by
  intro h
  exact hmem ((List.isPrefixOf_iff_prefix.mp h).subset hc)

/-- A list that contains no `p`-character is unchanged by `stripEnds p` … needed
to discharge the idempotence side conditions. -/
theorem takeWhile_eq_of_no_slash {l : List Char} (h : '/' ∉ l) :
    l.takeWhile (fun c => !(c = '/')) = l := by
  apply List.takeWhile_eq_self_iff.mpr
  intro c hc
  simp only [Bool.not_eq_true']
  rcases Decidable.em (c = '/') with he | he
  · exact absurd (he ▸ hc) h
  · simp [he]

/-- If a list contains no `'/'`, `stripHttpScheme` leaves it unchanged (both
scheme literals contain a `'/'`). -/
theorem stripHttpScheme_eq_of_no_slash {l : List Char} (h : '/' ∉ l) :
    stripHttpScheme l = l := by
  unfold stripHttpScheme
  have h8 : ¬((l.take 8).map Char.toLower = "https://".data) := by
    intro he
    have : '/' ∈ (l.take 8).map Char.toLower := by rw [he]; decide
    exact h (List.take_subset 8 l (slash_mem_of_mem_map_toLower this))
  have h7 : ¬((l.take 7).map Char.toLower = "http://".data) := by
    intro he
    have : '/' ∈ (l.take 7).map Char.toLower := by rw [he]; decide
    exact h (List.take_subset 7 l (slash_mem_of_mem_map_toLower this))
  rw [if_neg h8, if_neg h7]

/-- Idempotence of `_normalize_domain` on fixed points of its component steps. -/
theorem normalize_domain_eq_self (r : String) (hns : '/' ∉ r.data)
    (hlow : ∀ c ∈ r.data, Char.toLower c = c)
    (hstrip : stripEnds pyIsSpace r.data = r.data)
    (hwww : "www.".data.isPrefixOf r.data = false) : normalize_domain r = r := by
  have hmap : r.data.map Char.toLower = r.data := by
    have h1 : r.data.map Char.toLower = r.data.map id := List.map_congr_left hlow
    rw [h1, List.map_id]
  unfold normalize_domain
  simp only
  rw [hstrip, stripHttpScheme_eq_of_no_slash hns, takeWhile_eq_of_no_slash hns, hwww]
  simp only [Bool.false_eq_true, if_false]
  rw [hmap]

/-- Every character of a `_normalize_domain` result is already lower-case
(a fixed point of `Char.toLower`). -/
theorem normalize_domain_lowered (s : String) :
    ∀ c ∈ (normalize_domain s).data, Char.toLower c = c := by
  intro c hc
  have hd : (normalize_domain s).data =
      ((if "www.".data.isPrefixOf
          ((stripHttpScheme (stripEnds pyIsSpace s.data)).takeWhile (fun c => !(c = '/'))) then
        ((stripHttpScheme (stripEnds pyIsSpace s.data)).takeWhile (fun c => !(c = '/'))).drop 4
      else
        ((stripHttpScheme (stripEnds pyIsSpace s.data)).takeWhile
          (fun c => !(c = '/')))).map Char.toLower) := rfl
  rw [hd] at hc
  rcases List.mem_map.mp hc with ⟨d, _, hdl⟩
  rw [← hdl]
  exact toLower_idem d

/-- Claim C9 (amended): the result of `_normalize_domain` never contains `'/'`
and never starts with an `'http://'` or `'https://'` scheme; it can, however,
start with `'www.'`, and the function is idempotent only on inputs whose result
carries no leading/trailing Python whitespace and no leading `'www.'`. -/
theorem normalize_domain_spec (s : String) :
    '/' ∉ (normalize_domain s).data ∧
    ¬("http://".data.isPrefixOf (normalize_domain s).data = true) ∧
    ¬("https://".data.isPrefixOf (normalize_domain s).data = true) ∧
    (stripEnds pyIsSpace (normalize_domain s).data = (normalize_domain s).data →
      "www.".data.isPrefixOf (normalize_domain s).data = false →
      normalize_domain (normalize_domain s) = normalize_domain s) := by
  have hns := normalize_domain_no_slash s
  refine ⟨hns, not_isPrefixOf_of_not_mem (by decide) hns,
    not_isPrefixOf_of_not_mem (by decide) hns, ?_⟩
  intro hstrip hwww
  exact normalize_domain_eq_self (normalize_domain s) hns
    (normalize_domain_lowered s) hstrip hwww

/-- Claim C9 counterexample: `_normalize_domain` is not idempotent and its
result can start with `'www.'` — on `"WWW.A"` the case-sensitive `startswith`
check misses the upper-case prefix, which only the final `lower()` exposes. -/
theorem normalize_domain_counterexample :
    normalize_domain (normalize_domain "WWW.A") ≠ normalize_domain "WWW.A" ∧
    "www.".data.isPrefixOf (normalize_domain "WWW.A").data = true := by decide

/-- Claim C9 witness: a honest domain input is normalized idempotently. -/
theorem normalize_domain_spec_witness :
    normalize_domain (normalize_domain "https://www.Example.com/logo") =
      normalize_domain "https://www.Example.com/logo" :=
  (normalize_domain_spec "https://www.Example.com/logo").2.2.2 (by decide) (by decide)

/-- Claim C10 (amended): `clean_text_field` maps `None` and `''` to
`'Not specified'` and otherwise strips the value — so whitespace-only input
yields `''`; the literal `'Not specified'` can, however, also be produced by a
non-empty input equal to that literal. -/
theorem clean_text_field_spec :
    clean_text_field none = "Not specified" ∧
    clean_text_field (some "") = "Not specified" ∧
    (∀ v : String, v ≠ "" → clean_text_field (some v) = pyStrip v) ∧
    clean_text_field (some "   ") = "" := by
  refine ⟨rfl, rfl, ?_, by decide⟩
  intro v h
  show (if v = "" then "Not specified" else pyStrip v) = pyStrip v
  rw [if_neg h]

/-- Claim C10 counterexample: the "exactly when the input is None or empty"
direction fails — the non-empty input `'Not specified'` also produces the
literal `'Not specified'`. -/
theorem clean_text_field_counterexample :
    clean_text_field (some "Not specified") = "Not specified" ∧
    some "Not specified" ≠ (none : Option String) ∧ "Not specified" ≠ "" := by decide

/-- Claim C10 witness: a surrounding-whitespace value is stripped. -/
theorem clean_text_field_spec_witness :
    clean_text_field (some " a ") = pyStrip " a " :=
  clean_text_field_spec.2.2.1 " a " (by decide)

/-! ### Dates and `parse_posted_on` -/

/-- A Python `datetime.datetime` value (the backend never inspects timezone
information of the values it stores, so only the six calendar/clock fields are
modelled). -/
structure PyDateTime where
  year : Nat
  month : Nat
  day : Nat
  hour : Nat
  minute : Nat
  second : Nat
deriving DecidableEq, Repr

/-- A Python `datetime.date` value. -/
structure PyDate where
  year : Nat
  month : Nat
  day : Nat
deriving DecidableEq, Repr

/-- Python `datetime.date()` / SQL `DATE(...)`: the calendar-date part. -/
def PyDateTime.date (d : PyDateTime) : PyDate := ⟨d.year, d.month, d.day⟩

/-- An oracle embedding `datetime.strptime`: `strp s fmt = none` models
`strptime(s, fmt)` raising `ValueError` (the only exception the caller
catches), `some d` models a successful parse. -/
abbrev StrptimeOracle := String → String → Option PyDateTime

/-- The fixed format list of `parse_posted_on`
(`src/bulk_import.py` lines 102–111, in source order). -/
def date_formats : List String :=
  ["%Y-%m-%dT%H:%M:%S+00:00",
   "%Y-%m-%dT%H:%M:%SZ",
   "%Y-%m-%dT%H:%M:%S",
   "%Y-%m-%d %H:%M:%S",
   "%Y-%m-%d",
   "%d-%m-%Y",
   "%m/%d/%Y",
   "%d/%m/%Y"]

/-- The `for fmt in date_formats: try ... except ValueError: continue` loop of
`parse_posted_on`: first successful parse wins. -/
def tryFormats (strp : StrptimeOracle) (s : String) : List String → Option PyDateTime
  | [] => none
  | fmt :: rest =>
    match strp s fmt with
    | some d => some d
    | none => tryFormats strp s rest

/-- `parse_posted_on` from `src/bulk_import.py` (lines 97–120). `not posted_on_str`
is true in Python exactly for `None` and `''`; `now` is the value of
`datetime.now(timezone.utc)` at call time, passed explicitly. -/
def parse_posted_on (strp : StrptimeOracle) (now : PyDateTime)
    (posted_on_str : Option String) : PyDateTime :=
  match posted_on_str with
  | none => now
  | some s =>
    if s = "" ∨ s = "Not specified" then now
    else
      match tryFormats strp s date_formats with
      | some d => d
      | none => now

theorem tryFormats_eq_findSome (strp : StrptimeOracle) (s : String) (l : List String) :
    tryFormats strp s l = l.findSome? (fun fmt => strp s fmt) := by
  induction l with
  | nil => rfl
  | cons fmt rest ih =>
    show (match strp s fmt with
      | some d => some d
      | none => tryFormats strp s rest) = _
    rw [List.findSome?_cons]
    rcases strp s fmt with _ | d
    · exact ih
    · rfl

/-- Claim C8: `parse_posted_on` is total (it returns a `PyDateTime` for every
input by construction); it returns `now` on `None`, `''`, `'Not specified'`,
and otherwise the result of the first format in `date_formats` that parses —
falling back to `now` when no format matches. -/
theorem parse_posted_on_spec (strp : StrptimeOracle) (now : PyDateTime) :
    parse_posted_on strp now none = now ∧
    parse_posted_on strp now (some "") = now ∧
    parse_posted_on strp now (some "Not specified") = now ∧
    (∀ s : String, s ≠ "" → s ≠ "Not specified" →
      parse_posted_on strp now (some s) =
        (date_formats.findSome? (fun fmt => strp s fmt)).getD now) := by
  refine ⟨rfl, by simp [parse_posted_on], by simp [parse_posted_on], ?_⟩
  intro s h1 h2
  show (if s = "" ∨ s = "Not specified" then now
    else
      match tryFormats strp s date_formats with
      | some d => d
      | none => now) = _
  rw [if_neg (by simp [h1, h2]), tryFormats_eq_findSome]
  rcases date_formats.findSome? (fun fmt => strp s fmt) with _ | d <;> rfl

/-- A concrete `strptime` oracle for witnesses: recognizes one fixed
date-only string. -/
def witStrptime : StrptimeOracle := fun s fmt =>
  if fmt = "%Y-%m-%d" ∧ s = "2024-05-06" then some ⟨2024, 5, 6, 0, 0, 0⟩ else none

/-- Claim C8 witness: on a concrete date string the loop returns the first
matching format's parse. -/
theorem parse_posted_on_spec_witness :
    parse_posted_on witStrptime ⟨2025, 1, 1, 0, 0, 0⟩ (some "2024-05-06") =
      (date_formats.findSome? (fun fmt => witStrptime "2024-05-06" fmt)).getD
        ⟨2025, 1, 1, 0, 0, 0⟩ :=
  (parse_posted_on_spec witStrptime ⟨2025, 1, 1, 0, 0, 0⟩).2.2.2 "2024-05-06"
    (by decide) (by decide)

/-! ### Bulk import (`src/bulk_import.py`) -/

/-- The `JobInput` pydantic model (`src/bulk_import.py` lines 13–29): four
required string fields, the rest optional with `'Not specified'` / `None`
defaults (an explicit `None` is representable, hence `Option`). -/
structure JobInput where
  category : String
  company_name : String
  job_role : String
  website_link : String
  state : Option String := some "Not specified"
  city : Option String := some "Not specified"
  experience : Option String := some "Not specified"
  qualification : Option String := some "Not specified"
  batch : Option String := some "Not specified"
  salary_package : Option String := some "Not specified"
  job_description : Option String := some "Not specified"
  key_responsibility : Option String := some "Not specified"
  about_company : Option String := some "Not specified"
  selection_process : Option String := some "Not specified"
  image : Option String := some "Not specified"
  posted_on : Option String := none
deriving DecidableEq, Repr

/-- A row of the `jobs` table as written by the bulk-import `INSERT`
(lines 179–196 of `src/bulk_import.py`); all columns are the cleaned strings,
plus the parsed timestamp.  (The `IS NOT NULL` guards of the duplicate query
are vacuous here because every inserted column value is a string.) -/
structure JobRow where
  category : String
  company_name : String
  job_role : String
  website_link : String
  state : String
  city : String
  experience : String
  qualification : String
  batch : String
  salary_package : String
  job_description : String
  key_responsibility : String
  about_company : String
  selection_process : String
  image : String
  posted_on : PyDateTime
deriving DecidableEq, Repr

/-- The duplicate key: lower-cased and stripped identifying strings, the
calendar date, and the category. -/
abbrev JobKey := String × String × String × PyDate × String

/-- `create_job_key` from `src/bulk_import.py` (lines 128–137):
`x.lower().strip()` on the three strings, `posted_on.date()`, `category`. -/
def create_job_key (company_name job_role website_link : String)
    (posted_on : PyDateTime) (category : String) : JobKey :=
  (pyStrip (pyLower company_name),
   pyStrip (pyLower job_role),
   pyStrip (pyLower website_link),
   posted_on.date,
   category)

/-- The duplicate key recomputed from an inserted row; because the row stores
exactly the cleaned values that `create_job_key` received, this coincides with
the key computed during processing. -/
def rowKey (r : JobRow) : JobKey :=
  create_job_key r.company_name r.job_role r.website_link r.posted_on r.category

/-- The result set of the duplicate-load SQL query
(`SELECT LOWER(TRIM(..)) .. WHERE .. category = :category`, lines 66–91 of
`src/bulk_import.py`) when the query succeeds: the key of every row already
stored for one category. -/
def existingKeys (rows : List JobRow) (category : String) : List JobKey :=
  (rows.filter (fun r => r.category = category)).map (fun r =>
    (pyLower (sqlTrim r.company_name),
     pyLower (sqlTrim r.job_role),
     pyLower (sqlTrim r.website_link),
     r.posted_on.date,
     r.category))

/-- What happened to one input job during the bulk import (mirroring the
branches of the per-job loop, lines 162–226 of `src/bulk_import.py`). A job
whose `INSERT` succeeded but whose periodic commit then raised is counted in
`imported` *and* in `failed` by the code; `importedCommitFailed` records that
path. -/
inductive Outcome where
  | imported (row : JobRow)
  | importedCommitFailed (row : JobRow)
  | duplicate
  | failedInsert (row : JobRow)
deriving DecidableEq, Repr

/-- The row a successful `INSERT` wrote for this outcome, if any. -/
def outcomeRow : Outcome → Option JobRow
  | Outcome.imported r => some r
  | Outcome.importedCommitFailed r => some r
  | Outcome.duplicate => none
  | Outcome.failedInsert _ => none

/-- The rows actually inserted during a run, in insertion order. -/
def insertedRows (outs : List (JobInput × Outcome)) : List JobRow :=
  outs.filterMap (fun p => outcomeRow p.2)

def Outcome.isDup : Outcome → Bool
  | Outcome.duplicate => true
  | _ => false

def Outcome.isFailed : Outcome → Bool
  | Outcome.failedInsert _ => true
  | Outcome.importedCommitFailed _ => true
  | _ => false

def Outcome.isCommitFailed : Outcome → Bool
  | Outcome.importedCommitFailed _ => true
  | _ => false

/-- Number of jobs counted in the `duplicates` counter. -/
def countDup (outs : List (JobInput × Outcome)) : Nat :=
  (outs.filter (fun p => p.2.isDup)).length

/-- Number of `failed`-counter increments (failed insert, or failed periodic
commit after a successful insert). -/
def countFailed (outs : List (JobInput × Outcome)) : Nat :=
  (outs.filter (fun p => p.2.isFailed)).length

/-- Number of jobs that were imported but whose periodic commit raised. -/
def countCommitFailed (outs : List (JobInput × Outcome)) : Nat :=
  (outs.filter (fun p => p.2.isCommitFailed)).length

/-- Database actions issued through the session, in order. -/
inductive DbAction where
  | insert (row : JobRow)
  | commit
  | rollback
deriving DecidableEq, Repr

/-- The `stats` dictionary of `import_jobs_bulk` (lines 140–145). -/
structure ImportStats where
  total : Nat
  imported : Nat
  duplicates : Nat
  failed : Nat
deriving DecidableEq, Repr

/-- The evolving state of one `import_jobs_bulk` call: the statistics, the
per-job outcomes in processing order, the DB calls issued, and how many
`commit()` calls have been made (used to index the commit oracle). -/
structure BulkState where
  stats : ImportStats
  outcomes : List (JobInput × Outcome)
  actions : List DbAction
  commitCount : Nat
deriving DecidableEq, Repr

/-- Environment of a bulk import run: the `strptime` oracle and current time
for `parse_posted_on`, and oracles telling whether a given `INSERT`
(`db.execute`) or the k-th `commit()` raises. -/
structure BulkEnv where
  strptime : StrptimeOracle
  now : PyDateTime
  insertOk : JobRow → Bool
  commitOk : Nat → Bool
  loadOk : String → Bool

/-- `load_existing_jobs` from `src/bulk_import.py` (lines 63–95): the
duplicate-load `SELECT` for one category, wrapped in
`try .. except Exception: return set()` — when the query raises (the
`loadOk` oracle says `false`), the function returns the *empty* key set and
duplicate checking against the stored rows is silently skipped. -/
def load_existing_jobs (env : BulkEnv) (rows : List JobRow) (category : String) :
    List JobKey :=
  if env.loadOk category then existingKeys rows category else []

/-- The `job_data` record built for one input job (lines 164–196): required
strings and optional fields all go through `clean_text_field`, `posted_on`
through `parse_posted_on`. -/
def jobRowOf (env : BulkEnv) (category : String) (j : JobInput) : JobRow :=
  { category := category
    company_name := clean_text_field (some j.company_name)
    job_role := clean_text_field (some j.job_role)
    website_link := clean_text_field (some j.website_link)
    state := clean_text_field j.state
    city := clean_text_field j.city
    experience := clean_text_field j.experience
    qualification := clean_text_field j.qualification
    batch := clean_text_field j.batch
    salary_package := clean_text_field j.salary_package
    job_description := clean_text_field j.job_description
    key_responsibility := clean_text_field j.key_responsibility
    about_company := clean_text_field j.about_company
    selection_process := clean_text_field j.selection_process
    image := clean_text_field j.image
    posted_on := parse_posted_on env.strptime env.now j.posted_on }

/-- One iteration of the per-job loop (lines 162–226): duplicate check against
the evolving key set, `INSERT`, `imported` bump, key-set update, and the
periodic `commit()` every 50 imports — whose failure is caught by the same
per-job handler and counted in `failed` *after* the job was already counted in
`imported`. A failed `INSERT` is counted in `failed` and does not add the key. -/
def processJob (env : BulkEnv) (category : String)
    (acc : List JobKey × BulkState) (j : JobInput) : List JobKey × BulkState :=
  let existing := acc.1
  let st := acc.2
  let row := jobRowOf env category j
  let key := rowKey row
  if key ∈ existing then
    (existing,
      { st with
        stats := { st.stats with duplicates := st.stats.duplicates + 1 },
        outcomes := st.outcomes ++ [(j, Outcome.duplicate)] })
  else if env.insertOk row then
    if (st.stats.imported + 1) % 50 == 0 then
      if env.commitOk st.commitCount then
        (existing ++ [key],
          { stats := { st.stats with imported := st.stats.imported + 1 },
            outcomes := st.outcomes ++ [(j, Outcome.imported row)],
            actions := st.actions ++ [DbAction.insert row, DbAction.commit],
            commitCount := st.commitCount + 1 })
      else
        (existing ++ [key],
          { stats :=
              { st.stats with imported := st.stats.imported + 1, failed := st.stats.failed + 1 },
            outcomes := st.outcomes ++ [(j, Outcome.importedCommitFailed row)],
            actions := st.actions ++ [DbAction.insert row, DbAction.commit],
            commitCount := st.commitCount + 1 })
    else
      (existing ++ [key],
        { stats := { st.stats with imported := st.stats.imported + 1 },
          outcomes := st.outcomes ++ [(j, Outcome.imported row)],
          actions := st.actions ++ [DbAction.insert row],
          commitCount := st.commitCount })
  else
    (existing,
      { st with
        stats := { st.stats with failed := st.stats.failed + 1 },
        outcomes := st.outcomes ++ [(j, Outcome.failedInsert row)],
        actions := st.actions ++ [DbAction.insert row] })

/-- The `for job in category_jobs` loop. -/
def runBatch (env : BulkEnv) (category : String)
    (acc : List JobKey × BulkState) : List JobInput → List JobKey × BulkState
  | [] => acc
  | j :: rest => runBatch env category (processJob env category acc j) rest

/-- Insertion of one job into the `jobs_by_category` dictionary (lines
148–153): append to the entry with its category, or add a new entry at the
end (Python dicts preserve insertion order). -/
def addToGroups : List (String × List JobInput) → JobInput →
    List (String × List JobInput)
  | [], j => [(j.category, [j])]
  | (c, g) :: rest, j =>
    if c = j.category then (c, g ++ [j]) :: rest
    else (c, g) :: addToGroups rest j

/-- The grouping loop over the input jobs. -/
def groupJobs (acc : List (String × List JobInput)) :
    List JobInput → List (String × List JobInput)
  | [] => acc
  | j :: rest => groupJobs (addToGroups acc j) rest

/-- `jobs_by_category` (lines 148–153). -/
def jobs_by_category (jobs : List JobInput) : List (String × List JobInput) :=
  groupJobs [] jobs

/-- The `for category, category_jobs in jobs_by_category.items()` loop
(lines 157–226): per category, load the existing keys, then run the per-job
loop. -/
def runGroups (env : BulkEnv) (rows : List JobRow) (st : BulkState) :
    List (String × List JobInput) → BulkState
  | [] => st
  | (cat, js) :: rest =>
    runGroups env rows (runBatch env cat (load_existing_jobs env rows cat, st) js).2 rest

/-- `import_jobs_bulk` from `src/bulk_import.py` (lines 51–235): group the
jobs by category, process each group, then the final `commit()`; if the final
commit raises, the session is rolled back and the exception is re-raised
(modelled as `Except.error`), otherwise the statistics are returned. -/
def import_jobs_bulk (env : BulkEnv) (jobs : List JobInput) (rows : List JobRow) :
    BulkState × Except String ImportStats :=
  let st0 : BulkState := ⟨⟨jobs.length, 0, 0, 0⟩, [], [], 0⟩
  let stEnd := runGroups env rows st0 (jobs_by_category jobs)
  if env.commitOk stEnd.commitCount then
    ({ stEnd with
        actions := stEnd.actions ++ [DbAction.commit],
        commitCount := stEnd.commitCount + 1 },
      Except.ok stEnd.stats)
  else
    ({ stEnd with
        actions := stEnd.actions ++ [DbAction.commit, DbAction.rollback],
        commitCount := stEnd.commitCount + 1 },
      Except.error "Error during bulk import")

/-- The `BulkJobsResponse` pydantic model (lines 34–40). -/
structure BulkJobsResponse where
  success : Bool
  total_jobs : Nat
  imported : Nat
  duplicates : Nat
  failed : Nat
  message : String
deriving DecidableEq, Repr

/-- Responses of the bulk CSV endpoint that matter to the claims. -/
inductive CsvResult where
  | ok (resp : BulkJobsResponse)
  | error500 (detail : String)
deriving DecidableEq, Repr

/-- The import/response part of `create_jobs_bulk_csv`
(`src/api/job_router.py` lines 184–209): a normal return of
`import_jobs_bulk` becomes a success response built from the statistics; an
exception escaping it is caught by the generic handler and surfaced as an
HTTP 500 (the CSV parsing itself is request plumbing outside the claims). -/
def create_jobs_bulk_csv (env : BulkEnv) (jobs : List JobInput)
    (rows : List JobRow) : CsvResult :=
  match (import_jobs_bulk env jobs rows).2 with
  | Except.ok stats =>
    CsvResult.ok
      { success := true
        total_jobs := stats.total
        imported := stats.imported
        duplicates := stats.duplicates
        failed := stats.failed
        message := "Import completed: " ++ toString stats.imported ++
          " new jobs imported, " ++ toString stats.duplicates ++
          " duplicates skipped, " ++ toString stats.failed ++ " failed" }
  | Except.error e => CsvResult.error500 ("Import failed: " ++ e)

/-! ### Facts about one `processJob` step -/

theorem insertedRows_nil : insertedRows [] = [] := rfl

theorem insertedRows_append (l₁ l₂ : List (JobInput × Outcome)) :
    insertedRows (l₁ ++ l₂) = insertedRows l₁ ++ insertedRows l₂ :=
  List.filterMap_append l₁ l₂ _

theorem countDup_append (l₁ l₂ : List (JobInput × Outcome)) :
    countDup (l₁ ++ l₂) = countDup l₁ + countDup l₂ := by
  unfold countDup
  rw [List.filter_append, List.length_append]

theorem countFailed_append (l₁ l₂ : List (JobInput × Outcome)) :
    countFailed (l₁ ++ l₂) = countFailed l₁ + countFailed l₂ := by
  unfold countFailed
  rw [List.filter_append, List.length_append]

theorem countCommitFailed_append (l₁ l₂ : List (JobInput × Outcome)) :
    countCommitFailed (l₁ ++ l₂) = countCommitFailed l₁ + countCommitFailed l₂ := by
  unfold countCommitFailed
  rw [List.filter_append, List.length_append]

/-- Outcome-level characterization of one iteration of the per-job loop. -/
theorem processJob_char (env : BulkEnv) (cat : String) (existing : List JobKey)
    (st : BulkState) (j : JobInput) :
    ∃ o : Outcome,
      (processJob env cat (existing, st) j).2.outcomes = st.outcomes ++ [(j, o)] ∧
      (processJob env cat (existing, st) j).1
        = existing ++ (insertedRows [(j, o)]).map rowKey ∧
      (∀ r, outcomeRow o = some r → r = jobRowOf env cat j) ∧
      (o = Outcome.duplicate ↔ rowKey (jobRowOf env cat j) ∈ existing) ∧
      (processJob env cat (existing, st) j).2.stats.total = st.stats.total ∧
      (processJob env cat (existing, st) j).2.stats.duplicates
        = st.stats.duplicates + countDup [(j, o)] ∧
      (processJob env cat (existing, st) j).2.stats.imported
        = st.stats.imported + (insertedRows [(j, o)]).length ∧
      (processJob env cat (existing, st) j).2.stats.failed
        = st.stats.failed + countFailed [(j, o)] ∧
      ((∀ k, env.commitOk k = true) → o.isCommitFailed = false) := by
  unfold processJob
  simp only
  split
  case isTrue h =>
    exact ⟨Outcome.duplicate,
      rfl,
      by simp [insertedRows, outcomeRow],
      by intro r hr; exact absurd hr (by simp [outcomeRow]),
      by simp [h],
      rfl,
      by simp [countDup, Outcome.isDup],
      by simp [insertedRows, outcomeRow],
      by simp [countFailed, Outcome.isFailed],
      by intro _; rfl⟩
  case isFalse h =>
    split
    case isTrue hins =>
      split
      case isTrue hmod =>
        split
        case isTrue hcommit =>
          exact ⟨Outcome.imported (jobRowOf env cat j),
            rfl,
            by simp [insertedRows, outcomeRow],
            by intro r hr; simpa [outcomeRow] using hr.symm,
            by simp [h],
            rfl,
            by simp [countDup, Outcome.isDup],
            by simp [insertedRows, outcomeRow],
            by simp [countFailed, Outcome.isFailed],
            by intro _; rfl⟩
        case isFalse hcommit =>
          exact ⟨Outcome.importedCommitFailed (jobRowOf env cat j),
            rfl,
            by simp [insertedRows, outcomeRow],
            by intro r hr; simpa [outcomeRow] using hr.symm,
            by simp [h],
            rfl,
            by simp [countDup, Outcome.isDup],
            by simp [insertedRows, outcomeRow],
            by simp [countFailed, Outcome.isFailed],
            by intro hall; exact absurd (hall st.commitCount) (by simp [hcommit])⟩
      case isFalse hmod =>
        exact ⟨Outcome.imported (jobRowOf env cat j),
          rfl,
          by simp [insertedRows, outcomeRow],
          by intro r hr; simpa [outcomeRow] using hr.symm,
          by simp [h],
          rfl,
          by simp [countDup, Outcome.isDup],
          by simp [insertedRows, outcomeRow],
          by simp [countFailed, Outcome.isFailed],
          by intro _; rfl⟩
    case isFalse hins =>
      exact ⟨Outcome.failedInsert (jobRowOf env cat j),
        rfl,
        by simp [insertedRows, outcomeRow],
        by intro r hr; exact absurd hr (by simp [outcomeRow]),
        by simp [h],
        rfl,
        by simp [countDup, Outcome.isDup],
        by simp [insertedRows, outcomeRow],
        by simp [countFailed, Outcome.isFailed],
        by intro _; rfl⟩

/-- Invariant of the per-job loop over one category batch: the outcomes are
appended one per job; the key set grows by exactly the keys of inserted rows;
rows come from their jobs; a job is marked duplicate iff its key was in the
initial key set or among the keys inserted before it; inserted keys are fresh
and pairwise distinct; and the counters evolve by the outcome counts. -/
theorem runBatch_spec (env : BulkEnv) (cat : String) :
    ∀ (js : List JobInput) (existing : List JobKey) (st : BulkState),
    ∃ new : List (JobInput × Outcome),
      (runBatch env cat (existing, st) js).2.outcomes = st.outcomes ++ new ∧
      (runBatch env cat (existing, st) js).1
        = existing ++ (insertedRows new).map rowKey ∧
      new.length = js.length ∧
      (∀ p ∈ new, p.1 ∈ js ∧ ∀ r, outcomeRow p.2 = some r → r = jobRowOf env cat p.1) ∧
      (∀ pre p post, new = pre ++ p :: post →
        (p.2 = Outcome.duplicate ↔
          rowKey (jobRowOf env cat p.1) ∈ existing ++ (insertedRows pre).map rowKey)) ∧
      (∀ r ∈ insertedRows new, rowKey r ∉ existing) ∧
      ((insertedRows new).map rowKey).Nodup ∧
      (runBatch env cat (existing, st) js).2.stats.total = st.stats.total ∧
      (runBatch env cat (existing, st) js).2.stats.duplicates
        = st.stats.duplicates + countDup new ∧
      (runBatch env cat (existing, st) js).2.stats.imported
        = st.stats.imported + (insertedRows new).length ∧
      (runBatch env cat (existing, st) js).2.stats.failed
        = st.stats.failed + countFailed new ∧
      ((∀ k, env.commitOk k = true) → countCommitFailed new = 0) := by
  intro js
  induction js with
  | nil =>
    intro existing st
    refine ⟨[], by simp [runBatch], by simp [runBatch, insertedRows], rfl, ?_, ?_,
      by simp [insertedRows], by simp [insertedRows], by simp [runBatch],
      by simp [runBatch, countDup], by simp [runBatch, insertedRows],
      by simp [runBatch, countFailed], by intro _; simp [countCommitFailed]⟩
    · intro p hp
      exact absurd hp (List.not_mem_nil p)
    · intro pre p post heq
      rcases pre with _ | ⟨q, pre'⟩ <;> simp at heq
  | cons j rest ih =>
    intro existing st
    obtain ⟨o, ho1, ho2, ho3, ho4, ho5, ho6, ho7, ho8, ho9⟩ :=
      processJob_char env cat existing st j
    rcases hP : processJob env cat (existing, st) j with ⟨existing1, st1⟩
    rw [hP] at ho1 ho2 ho5 ho6 ho7 ho8
    dsimp only at ho1 ho2 ho5 ho6 ho7 ho8
    have hstep : runBatch env cat (existing, st) (j :: rest)
        = runBatch env cat (existing1, st1) rest := by
      show runBatch env cat (processJob env cat (existing, st) j) rest = _
      rw [hP]
    obtain ⟨new', h1, h2, h3, h4, h5, h6, h7, h8, h9, h10, h11, h12⟩ := ih existing1 st1
    have hsplit : (j, o) :: new' = [(j, o)] ++ new' := rfl
    have hins : insertedRows ((j, o) :: new')
        = insertedRows [(j, o)] ++ insertedRows new' := by
      rw [hsplit, insertedRows_append]
    refine ⟨(j, o) :: new', ?_, ?_, ?_, ?_, ?_, ?_, ?_, ?_, ?_, ?_, ?_, ?_⟩
    · rw [hstep, h1, ho1, List.append_assoc]
      rfl
    · rw [hstep, h2, ho2, hins, List.map_append, List.append_assoc]
    · simp [h3]
    · intro p hp
      rcases List.mem_cons.mp hp with hp | hp
      · rw [hp]
        exact ⟨List.mem_cons_self j rest, fun r hr => ho3 r hr⟩
      · obtain ⟨hmem, hrow⟩ := h4 p hp
        exact ⟨List.mem_cons_of_mem j hmem, hrow⟩
    · intro pre p post heq
      rcases pre with _ | ⟨q, pre'⟩
      · simp only [List.nil_append] at heq
        obtain ⟨hpj, -⟩ := List.cons.inj heq
        rw [← hpj]
        simpa [insertedRows] using ho4
      · rw [List.cons_append] at heq
        obtain ⟨hq, htl⟩ := List.cons.inj heq
        have h5' := h5 pre' p post htl
        rw [← hq]
        have hc : ((j, o) :: pre' : List (JobInput × Outcome)) = [(j, o)] ++ pre' := rfl
        rw [hc, insertedRows_append, List.map_append, ← List.append_assoc, ← ho2]
        exact h5'
    · intro r hr
      rw [hins] at hr
      rcases List.mem_append.mp hr with hr | hr
      · rcases hor : outcomeRow o with _ | r0
        · rw [show insertedRows [(j, o)] = [] by simp [insertedRows, hor]] at hr
          exact absurd hr (List.not_mem_nil r)
        · rw [show insertedRows [(j, o)] = [r0] by simp [insertedRows, hor]] at hr
          have hrr : r = r0 := by simpa using hr
          have hro : r = jobRowOf env cat j := by rw [hrr]; exact ho3 r0 hor
          intro hmem
          have hod : o = Outcome.duplicate := ho4.mpr (by rw [← hro]; exact hmem)
          rw [hod] at hor
          exact absurd hor (by simp [outcomeRow])
      · have := h6 r hr
        rw [ho2] at this
        intro hmem
        exact this (List.mem_append_left _ hmem)
    · rw [hins]
      rcases hor : outcomeRow o with _ | r0
      · rw [show insertedRows [(j, o)] = [] by simp [insertedRows, hor]]
        simpa using h7
      · rw [show insertedRows [(j, o)] = [r0] by simp [insertedRows, hor]]
        rw [List.singleton_append, List.map_cons, List.nodup_cons]
        refine ⟨?_, h7⟩
        intro hmem
        rcases List.mem_map.mp hmem with ⟨r', hr', hkey⟩
        have := h6 r' hr'
        rw [ho2] at this
        apply this
        apply List.mem_append_right
        rw [show insertedRows [(j, o)] = [r0] by simp [insertedRows, hor]]
        simp [hkey]
    · rw [hstep, h8, ho5]
    · rw [hstep, h9, ho6, hsplit, countDup_append]
      omega
    · rw [hstep, h10, ho7, hins, List.length_append]
      omega
    · rw [hstep, h11, ho8, hsplit, countFailed_append]
      omega
    · intro hall
      rw [hsplit, countCommitFailed_append, h12 hall]
      have : countCommitFailed [(j, o)] = 0 := by
        simp [countCommitFailed, ho9 hall]
      omega

/-! ### Facts about the grouping by category -/

theorem addToGroups_member (j : JobInput) :
    ∀ acc : List (String × List JobInput),
    (∀ g ∈ acc, ∀ x ∈ g.2, x.category = g.1) →
    ∀ g ∈ addToGroups acc j, ∀ x ∈ g.2, x.category = g.1 := by
  intro acc
  induction acc with
  | nil =>
    intro _ g hg x hx
    rw [show g = (j.category, [j]) by simpa [addToGroups] using hg] at hx ⊢
    rw [show x = j by simpa using hx]
  | cons e rest ih =>
    rcases e with ⟨c, gr⟩
    intro hinv g hg x hx
    rw [show addToGroups ((c, gr) :: rest) j
        = if c = j.category then (c, gr ++ [j]) :: rest
          else (c, gr) :: addToGroups rest j from rfl] at hg
    rcases Decidable.em (c = j.category) with hc | hc
    · rw [if_pos hc] at hg
      rcases List.mem_cons.mp hg with hg | hg
      · rw [hg] at hx ⊢
        rcases List.mem_append.mp hx with hx | hx
        · exact hinv (c, gr) (List.mem_cons_self _ _) x hx
        · rw [show x = j by simpa using hx]
          exact hc.symm
      · exact hinv g (List.mem_cons_of_mem _ hg) x hx
    · rw [if_neg hc] at hg
      rcases List.mem_cons.mp hg with hg | hg
      · rw [hg] at hx ⊢
        exact hinv (c, gr) (List.mem_cons_self _ _) x hx
      · exact ih (fun g' hg' => hinv g' (List.mem_cons_of_mem _ hg')) g hg x hx

theorem addToGroups_keys (j : JobInput) :
    ∀ acc : List (String × List JobInput),
    (addToGroups acc j).map Prod.fst
      = if j.category ∈ acc.map Prod.fst then acc.map Prod.fst
        else acc.map Prod.fst ++ [j.category] := by
  intro acc
  induction acc with
  | nil => simp [addToGroups]
  | cons e rest ih =>
    rcases e with ⟨c, gr⟩
    rw [show addToGroups ((c, gr) :: rest) j
        = if c = j.category then (c, gr ++ [j]) :: rest
          else (c, gr) :: addToGroups rest j from rfl]
    rcases Decidable.em (c = j.category) with hc | hc
    · rw [if_pos hc]
      have : j.category ∈ ((c, gr) :: rest).map Prod.fst := by
        simp [hc.symm]
      rw [if_pos this]
      simp
    · rw [if_neg hc]
      rcases Decidable.em (j.category ∈ rest.map Prod.fst) with hm | hm
      · have hm' : j.category ∈ ((c, gr) :: rest).map Prod.fst := by
          simp [hm]
        rw [if_pos hm']
        simp only [List.map_cons]
        rw [ih, if_pos hm]
      · have hm' : j.category ∉ ((c, gr) :: rest).map Prod.fst := by
          simp only [List.map_cons, List.mem_cons]
          intro hor
          rcases hor with hor | hor
          · exact hc hor.symm
          · exact hm hor
        rw [if_neg hm']
        simp only [List.map_cons]
        rw [ih, if_neg hm]
        rfl

theorem addToGroups_sum (j : JobInput) :
    ∀ acc : List (String × List JobInput),
    ((addToGroups acc j).map (fun g => g.2.length)).sum
      = ((acc.map (fun g => g.2.length)).sum) + 1 := by
  intro acc
  induction acc with
  | nil => simp [addToGroups]
  | cons e rest ih =>
    rcases e with ⟨c, gr⟩
    rw [show addToGroups ((c, gr) :: rest) j
        = if c = j.category then (c, gr ++ [j]) :: rest
          else (c, gr) :: addToGroups rest j from rfl]
    rcases Decidable.em (c = j.category) with hc | hc
    · rw [if_pos hc]
      simp only [List.map_cons, List.sum_cons, List.length_append, List.length_singleton]
      omega
    · rw [if_neg hc]
      simp only [List.map_cons, List.sum_cons]
      rw [ih]
      omega

theorem groupJobs_member :
    ∀ (jobs : List JobInput) (acc : List (String × List JobInput)),
    (∀ g ∈ acc, ∀ x ∈ g.2, x.category = g.1) →
    ∀ g ∈ groupJobs acc jobs, ∀ x ∈ g.2, x.category = g.1 := by
  intro jobs
  induction jobs with
  | nil => intro acc hinv; exact hinv
  | cons j rest ih =>
    intro acc hinv
    exact ih (addToGroups acc j) (addToGroups_member j acc hinv)

theorem groupJobs_keys_nodup :
    ∀ (jobs : List JobInput) (acc : List (String × List JobInput)),
    (acc.map Prod.fst).Nodup →
    ((groupJobs acc jobs).map Prod.fst).Nodup := by
  intro jobs
  induction jobs with
  | nil => intro acc h; exact h
  | cons j rest ih =>
    intro acc h
    apply ih (addToGroups acc j)
    rw [addToGroups_keys j acc]
    rcases Decidable.em (j.category ∈ acc.map Prod.fst) with hm | hm
    · rw [if_pos hm]; exact h
    · rw [if_neg hm]
      simp [List.nodup_append, h, hm]

theorem groupJobs_sum :
    ∀ (jobs : List JobInput) (acc : List (String × List JobInput)),
    ((groupJobs acc jobs).map (fun g => g.2.length)).sum
      = (acc.map (fun g => g.2.length)).sum + jobs.length := by
  intro jobs
  induction jobs with
  | nil => intro acc; rfl
  | cons j rest ih =>
    intro acc
    show ((groupJobs (addToGroups acc j) rest).map (fun g => g.2.length)).sum = _
    rw [ih (addToGroups acc j), addToGroups_sum j acc]
    simp only [List.length_cons]
    omega

theorem jobs_by_category_member (jobs : List JobInput) :
    ∀ g ∈ jobs_by_category jobs, ∀ x ∈ g.2, x.category = g.1 :=
  groupJobs_member jobs [] (by intro g hg; exact absurd hg (List.not_mem_nil g))

theorem jobs_by_category_keys_nodup (jobs : List JobInput) :
    ((jobs_by_category jobs).map Prod.fst).Nodup :=
  groupJobs_keys_nodup jobs [] (by simp)

theorem jobs_by_category_sum (jobs : List JobInput) :
    ((jobs_by_category jobs).map (fun g => g.2.length)).sum = jobs.length := by
  have := groupJobs_sum jobs []
  simpa using this

/-- Membership in the inserted-row trace comes from an outcome that carries
that row. -/
theorem mem_insertedRows {r : JobRow} {l : List (JobInput × Outcome)} :
    r ∈ insertedRows l ↔ ∃ p ∈ l, outcomeRow p.2 = some r := by
  simp [insertedRows, List.mem_filterMap]

theorem rowKey_category (r : JobRow) : (rowKey r).2.2.2.2 = r.category := rfl

theorem jobRowOf_category (env : BulkEnv) (cat : String) (j : JobInput) :
    (jobRowOf env cat j).category = cat := rfl

/-- Global invariant across the per-category loop of `import_jobs_bulk`:
outcomes accumulate one entry per input job; inserted rows carry their group's
category and hold keys absent from that category's existing rows, pairwise
distinct; a job is marked duplicate iff its key matches its category's
existing rows or a row inserted earlier in the call; counters evolve by the
outcome counts. -/
theorem runGroups_spec (env : BulkEnv) (rows : List JobRow) :
    ∀ (groups : List (String × List JobInput)) (st : BulkState),
    (∀ g ∈ groups, ∀ x ∈ g.2, x.category = g.1) →
    ((groups.map Prod.fst).Nodup) →
    ∃ new : List (JobInput × Outcome),
      (runGroups env rows st groups).outcomes = st.outcomes ++ new ∧
      new.length = (groups.map (fun g => g.2.length)).sum ∧
      (∀ p ∈ new,
        (∀ r, outcomeRow p.2 = some r →
          r = jobRowOf env p.1.category p.1 ∧ r.category = p.1.category) ∧
        p.1.category ∈ groups.map Prod.fst) ∧
      (∀ r ∈ insertedRows new, rowKey r ∉ load_existing_jobs env rows r.category) ∧
      ((insertedRows new).map rowKey).Nodup ∧
      (∀ pre p post, new = pre ++ p :: post →
        (p.2 = Outcome.duplicate ↔
          rowKey (jobRowOf env p.1.category p.1) ∈ load_existing_jobs env rows p.1.category ∨
          rowKey (jobRowOf env p.1.category p.1) ∈ (insertedRows pre).map rowKey)) ∧
      (runGroups env rows st groups).stats.total = st.stats.total ∧
      (runGroups env rows st groups).stats.duplicates = st.stats.duplicates + countDup new ∧
      (runGroups env rows st groups).stats.imported
        = st.stats.imported + (insertedRows new).length ∧
      (runGroups env rows st groups).stats.failed = st.stats.failed + countFailed new ∧
      ((∀ k, env.commitOk k = true) → countCommitFailed new = 0) := by
  intro groups
  induction groups with
  | nil =>
    intro st _ _
    refine ⟨[], by simp [runGroups], by simp, ?_, by simp [insertedRows],
      by simp [insertedRows], ?_, by simp [runGroups], by simp [runGroups, countDup],
      by simp [runGroups, insertedRows], by simp [runGroups, countFailed],
      by intro _; simp [countCommitFailed]⟩
    · intro p hp
      exact absurd hp (List.not_mem_nil p)
    · intro pre p post heq
      rcases pre with _ | ⟨q, pre'⟩ <;> simp at heq
  | cons grp rest ih =>
    rcases grp with ⟨cat, js⟩
    intro st hinv hnodup
    have hgrp : ∀ x ∈ js, x.category = cat :=
      fun x hx => hinv (cat, js) (List.mem_cons_self _ _) x hx
    have hnodup2 : (cat :: rest.map Prod.fst).Nodup := by
      rw [List.map_cons] at hnodup
      exact hnodup
    have hcatnot : cat ∉ rest.map Prod.fst := (List.nodup_cons.mp hnodup2).1
    obtain ⟨newB, b1, b2, b3, b4, b5, b6, b7, b8, b9, b10, b11, b12⟩ :=
      runBatch_spec env cat js (load_existing_jobs env rows cat) st
    rcases hB : runBatch env cat (load_existing_jobs env rows cat, st) js with ⟨exB, st1⟩
    rw [hB] at b1 b2 b8 b9 b10 b11
    dsimp only at b1 b2 b8 b9 b10 b11
    have hstep : runGroups env rows st ((cat, js) :: rest)
        = runGroups env rows st1 rest := by
      show runGroups env rows (runBatch env cat (load_existing_jobs env rows cat, st) js).2 rest = _
      rw [hB]
    obtain ⟨newR, r1, r2, r3, r4, r5, r6, r7, r8, r9, r10, r11⟩ :=
      ih st1 (fun g hg => hinv g (List.mem_cons_of_mem _ hg))
        ((List.nodup_cons.mp hnodup2).2)
    -- facts about the keys of rows inserted in this batch
    have hBrow : ∀ r ∈ insertedRows newB, r.category = cat := by
      intro r hr
      rcases mem_insertedRows.mp hr with ⟨p, hp, hpr⟩
      have := (b4 p hp).2 r hpr
      rw [this]
      rfl
    have hRcat : ∀ p ∈ newR, p.1.category ∈ rest.map Prod.fst :=
      fun p hp => (r3 p hp).2
    have hRrowcat : ∀ r ∈ insertedRows newR, r.category ∈ rest.map Prod.fst := by
      intro r hr
      rcases mem_insertedRows.mp hr with ⟨p, hp, hpr⟩
      have h1 := ((r3 p hp).1 r hpr).2
      rw [h1]
      exact hRcat p hp
    have hBkey : ∀ k ∈ (insertedRows newB).map rowKey, k.2.2.2.2 = cat := by
      intro k hk
      rcases List.mem_map.mp hk with ⟨r, hr, hkr⟩
      rw [← hkr, rowKey_category]
      exact hBrow r hr
    have hRkey : ∀ k ∈ (insertedRows newR).map rowKey, k.2.2.2.2 ∈ rest.map Prod.fst := by
      intro k hk
      rcases List.mem_map.mp hk with ⟨r, hr, hkr⟩
      rw [← hkr, rowKey_category]
      exact hRrowcat r hr
    have hinsapp : insertedRows (newB ++ newR) = insertedRows newB ++ insertedRows newR :=
      insertedRows_append newB newR
    refine ⟨newB ++ newR, ?_, ?_, ?_, ?_, ?_, ?_, ?_, ?_, ?_, ?_, ?_⟩
    · rw [hstep, r1, b1, List.append_assoc]
    · rw [List.length_append, b3, r2]
      simp
    · intro p hp
      rcases List.mem_append.mp hp with hp | hp
      · have hpc : p.1.category = cat := hgrp p.1 (b4 p hp).1
        refine ⟨?_, by rw [hpc]; simp⟩
        intro r hr
        have := (b4 p hp).2 r hr
        rw [hpc]
        exact ⟨this, by rw [this]; rfl⟩
      · obtain ⟨hrow, hmemk⟩ := r3 p hp
        exact ⟨hrow, by simp [hmemk]⟩
    · intro r hr
      rw [hinsapp] at hr
      rcases List.mem_append.mp hr with hr | hr
      · rw [show r.category = cat from hBrow r hr]
        exact b6 r hr
      · exact r4 r hr
    · rw [hinsapp, List.map_append]
      rw [List.nodup_append]
      refine ⟨b7, r5, ?_⟩
      intro k hkB hkR
      have h1 := hBkey k hkB
      have h2 := hRkey k hkR
      rw [h1] at h2
      exact hcatnot h2
    · intro pre p post heq
      rcases List.append_eq_append_iff.mp heq with ⟨mid, hpre, hmid⟩ | ⟨mid, hnewB, hmid⟩
      · -- the split point is inside newR
        have hpR : p ∈ newR := by
          rw [hmid]
          exact List.mem_append_right mid (List.mem_cons_self _ _)
        have hiff := r6 mid p post hmid
        have hkey5 : (rowKey (jobRowOf env p.1.category p.1)).2.2.2.2 = p.1.category := rfl
        have hnotB : rowKey (jobRowOf env p.1.category p.1) ∉ (insertedRows newB).map rowKey := by
          intro hmem
          have h5c := hBkey _ hmem
          rw [hkey5] at h5c
          have hmem2 := hRcat p hpR
          rw [h5c] at hmem2
          exact hcatnot hmem2
        rw [hpre, insertedRows_append newB mid, List.map_append]
        constructor
        · intro hd
          rcases hiff.mp hd with hd | hd
          · exact Or.inl hd
          · exact Or.inr (List.mem_append_right _ hd)
        · intro hd
          rcases hd with hd | hd
          · exact hiff.mpr (Or.inl hd)
          · rcases List.mem_append.mp hd with hd | hd
            · exact absurd hd hnotB
            · exact hiff.mpr (Or.inr hd)
      · -- the split point is inside newB (or exactly at the boundary)
        rcases mid with _ | ⟨q, mid'⟩
        · -- boundary: pre = newB and p is the head of newR
          rw [List.append_nil] at hnewB
          have hpR : p ∈ newR := by
            rw [show newR = p :: post from by simpa using hmid.symm]
            exact List.mem_cons_self _ _
          have hiff := r6 [] p post (by simpa using hmid.symm)
          have hkey5 : (rowKey (jobRowOf env p.1.category p.1)).2.2.2.2 = p.1.category := rfl
          have hnotB : rowKey (jobRowOf env p.1.category p.1) ∉ (insertedRows newB).map rowKey := by
            intro hmem
            have h5c := hBkey _ hmem
            rw [hkey5] at h5c
            have hmem2 := hRcat p hpR
            rw [h5c] at hmem2
            exact hcatnot hmem2
          rw [← hnewB]
          constructor
          · intro hd
            rcases hiff.mp hd with hd | hd
            · exact Or.inl hd
            · exact absurd hd (by simp [insertedRows])
          · intro hd
            rcases hd with hd | hd
            · exact hiff.mpr (Or.inl hd)
            · exact absurd hd hnotB
        · -- inside newB
          obtain ⟨hpq, hpost⟩ := List.cons.inj hmid
          have hBsplit : newB = pre ++ p :: mid' := by rw [hnewB, ← hpq]
          have hpB : p ∈ newB := by
            rw [hBsplit]
            exact List.mem_append_right pre (List.mem_cons_self _ _)
          have hpc : p.1.category = cat := hgrp p.1 (b4 p hpB).1
          have hiff := b5 pre p mid' hBsplit
          rw [hpc]
          constructor
          · intro hd
            rcases List.mem_append.mp (hiff.mp hd) with hd | hd
            · exact Or.inl hd
            · exact Or.inr hd
          · intro hd
            apply hiff.mpr
            rcases hd with hd | hd
            · exact List.mem_append_left _ hd
            · exact List.mem_append_right _ hd
    · rw [hstep, r7, b8]
    · rw [hstep, r8, b9, countDup_append]
      omega
    · rw [hstep, r9, b10, hinsapp, List.length_append]
      omega
    · rw [hstep, r10, b11, countFailed_append]
      omega
    · intro hall
      rw [countCommitFailed_append, b12 hall, r11 hall]

/-! ### Top-level bulk-import theorems (claims C1, C4) -/

theorem import_jobs_bulk_state (env : BulkEnv) (jobs : List JobInput) (rows : List JobRow) :
    (import_jobs_bulk env jobs rows).1.outcomes
      = (runGroups env rows ⟨⟨jobs.length, 0, 0, 0⟩, [], [], 0⟩ (jobs_by_category jobs)).outcomes ∧
    (import_jobs_bulk env jobs rows).1.stats
      = (runGroups env rows ⟨⟨jobs.length, 0, 0, 0⟩, [], [], 0⟩ (jobs_by_category jobs)).stats := by
  unfold import_jobs_bulk
  simp only
  split <;> exact ⟨rfl, rfl⟩

theorem import_jobs_bulk_ok {env : BulkEnv} {jobs : List JobInput} {rows : List JobRow}
    {s : ImportStats} (h : (import_jobs_bulk env jobs rows).2 = Except.ok s) :
    s = (runGroups env rows ⟨⟨jobs.length, 0, 0, 0⟩, [], [], 0⟩ (jobs_by_category jobs)).stats := by
  unfold import_jobs_bulk at h
  simp only at h
  split at h
  · dsimp only at h
    exact (Except.ok.inj h).symm
  · dsimp only at h
    exact absurd h (by simp)

/-- Claim C1 (amended): provided the per-category duplicate-load `SELECT`
succeeds, a job is inserted by `import_jobs_bulk` only if its duplicate key
(lower-cased/stripped company, role, link, the calendar date, the category)
matches neither an existing row of the same category nor a job inserted
earlier in the same call, and an input job is skipped and counted in the
`duplicates` counter exactly when its key does match. Unconditionally — even
when a load fails — no two rows inserted in one call share a key, and the
`duplicates` counter counts exactly the jobs marked duplicate. (When the
`SELECT` raises, the `except` branch proceeds with an empty key set and jobs
duplicating stored rows are inserted uncounted; see the counterexample.) -/
theorem import_jobs_bulk_duplicate_filter (env : BulkEnv) (jobs : List JobInput)
    (rows : List JobRow) :
    ((insertedRows (import_jobs_bulk env jobs rows).1.outcomes).map rowKey).Nodup ∧
    (import_jobs_bulk env jobs rows).1.stats.duplicates
      = countDup (import_jobs_bulk env jobs rows).1.outcomes ∧
    ((∀ cat, env.loadOk cat = true) →
      (∀ r ∈ insertedRows (import_jobs_bulk env jobs rows).1.outcomes,
          rowKey r ∉ existingKeys rows r.category) ∧
      (∀ pre p post, (import_jobs_bulk env jobs rows).1.outcomes = pre ++ p :: post →
        (p.2 = Outcome.duplicate ↔
          rowKey (jobRowOf env p.1.category p.1) ∈ existingKeys rows p.1.category ∨
          rowKey (jobRowOf env p.1.category p.1) ∈ (insertedRows pre).map rowKey))) := by
  obtain ⟨hout, hstats⟩ := import_jobs_bulk_state env jobs rows
  obtain ⟨new, g1, g2, g3, g4, g5, g6, g7, g8, g9, g10, g11⟩ :=
    runGroups_spec env rows (jobs_by_category jobs) ⟨⟨jobs.length, 0, 0, 0⟩, [], [], 0⟩
      (jobs_by_category_member jobs) (jobs_by_category_keys_nodup jobs)
  have hnew : (import_jobs_bulk env jobs rows).1.outcomes = new := by
    rw [hout, g1]
    exact List.nil_append new
  refine ⟨?_, ?_, ?_⟩
  · rw [hnew]; exact g5
  · rw [hnew, hstats, g8]
    simp
  · intro hl
    have he : ∀ c, load_existing_jobs env rows c = existingKeys rows c := by
      intro c
      exact if_pos (hl c)
    constructor
    · intro r hr
      rw [hnew] at hr
      rw [← he r.category]
      exact g4 r hr
    · intro pre p post hsplit
      rw [hnew] at hsplit
      have hiff := g6 pre p post hsplit
      rw [he p.1.category] at hiff
      exact hiff

/-- A run's length is partitioned by the outcome kinds; commit-failed jobs are
counted twice (in `imported` and in `failed`). -/
theorem outcome_partition (l : List (JobInput × Outcome)) :
    (insertedRows l).length + countDup l + countFailed l
      = l.length + countCommitFailed l := by
  induction l with
  | nil => rfl
  | cons p rest ih =>
    rcases p with ⟨j, o⟩
    have h1 : ((j, o) :: rest : List (JobInput × Outcome)) = [(j, o)] ++ rest := rfl
    have hsing : (insertedRows [(j, o)]).length + countDup [(j, o)] + countFailed [(j, o)]
        = 1 + countCommitFailed [(j, o)] := by
      cases o <;> rfl
    rw [h1, insertedRows_append, countDup_append, countFailed_append,
      countCommitFailed_append, List.length_append, List.length_append]
    simp only [List.length_singleton]
    omega

/-- Claim C4 (amended): when every periodic commit succeeds and
`import_jobs_bulk` returns normally, every input job is counted in exactly one
counter, so `imported + duplicates + failed = total = len(jobs)`. (Without the
commit hypothesis a failed periodic commit double-counts its job, see the
counterexample.) -/
theorem import_jobs_bulk_stats_partition (env : BulkEnv) (jobs : List JobInput)
    (rows : List JobRow) (hc : ∀ k, env.commitOk k = true) :
    ∀ s, (import_jobs_bulk env jobs rows).2 = Except.ok s →
      s.imported + s.duplicates + s.failed = s.total ∧ s.total = jobs.length := by
  intro s hok
  have hs := import_jobs_bulk_ok hok
  obtain ⟨new, g1, g2, g3, g4, g5, g6, g7, g8, g9, g10, g11⟩ :=
    runGroups_spec env rows (jobs_by_category jobs) ⟨⟨jobs.length, 0, 0, 0⟩, [], [], 0⟩
      (jobs_by_category_member jobs) (jobs_by_category_keys_nodup jobs)
  have hlen : new.length = jobs.length := by
    rw [g2, jobs_by_category_sum]
  have hpart := outcome_partition new
  have hcf := g11 hc
  rw [hs, g7, g8, g9, g10]
  refine ⟨?_, rfl⟩
  simp only
  omega

/-- A 50-job input for the stats counterexample: 50 distinct companies in one
category, so all 50 insert and the 50th import triggers the periodic commit. -/
def cJob (i : Nat) : JobInput :=
  { category := "Remote", company_name := "c" ++ toString i, job_role := "r",
    website_link := "w" }

def cJobs : List JobInput := (List.range 50).map cJob

/-- Environment in which every insert succeeds, the first commit (the periodic
one at `imported == 50`) raises, and the final commit succeeds. -/
def cEnv : BulkEnv :=
  { strptime := fun _ _ => none, now := ⟨2025, 1, 1, 0, 0, 0⟩,
    insertOk := fun _ => true, commitOk := fun k => k != 0,
    loadOk := fun _ => true }

deriving instance DecidableEq for Except

set_option maxRecDepth 200000 in
/-- Claim C4 counterexample: when the periodic commit at the 50th import
raises, that job is counted in `imported` *and* in `failed`, the final commit
still succeeds, and `import_jobs_bulk` returns normally with
`imported + duplicates + failed = 51 ≠ 50 = total`. -/
theorem import_jobs_bulk_sum_counterexample :
    (import_jobs_bulk cEnv cJobs []).2
      = Except.ok { total := 50, imported := 50, duplicates := 0, failed := 1 } ∧
    50 + 0 + 1 ≠ 50 := by
  decide

/-- Witness job/environment for the duplicate filter: a single job whose key
matches a stored row of the same category. -/
def wEnv : BulkEnv :=
  { strptime := fun _ _ => none, now := ⟨2025, 1, 1, 0, 0, 0⟩,
    insertOk := fun _ => true, commitOk := fun _ => true,
    loadOk := fun _ => true }

def wJob : JobInput :=
  { category := "Remote", company_name := "acme", job_role := "dev",
    website_link := "w" }

def wRow : JobRow :=
  { category := "Remote", company_name := "acme", job_role := "dev",
    website_link := "w", state := "Not specified", city := "Not specified",
    experience := "Not specified", qualification := "Not specified",
    batch := "Not specified", salary_package := "Not specified",
    job_description := "Not specified", key_responsibility := "Not specified",
    about_company := "Not specified", selection_process := "Not specified",
    image := "Not specified", posted_on := ⟨2025, 1, 1, 0, 0, 0⟩ }

/-- Claim C1 witness: on a concrete run whose duplicate-load succeeds against
a database holding a matching row, the single job's outcome is `duplicate`,
and the characterization applies. -/
theorem import_jobs_bulk_duplicate_filter_witness :
    (Outcome.duplicate = Outcome.duplicate ↔
      rowKey (jobRowOf wEnv wJob.category wJob) ∈ existingKeys [wRow] wJob.category ∨
      rowKey (jobRowOf wEnv wJob.category wJob) ∈ (insertedRows []).map rowKey) :=
  ((import_jobs_bulk_duplicate_filter wEnv [wJob] [wRow]).2.2 (fun _ => rfl)).2
    [] (wJob, Outcome.duplicate) [] (by decide)

/-- Environment whose duplicate-load `SELECT` raises for every category (the
`except` branch of `load_existing_jobs` fires), with inserts and commits
succeeding. -/
def lEnv : BulkEnv :=
  { strptime := fun _ _ => none, now := ⟨2025, 1, 1, 0, 0, 0⟩,
    insertOk := fun _ => true, commitOk := fun _ => true,
    loadOk := fun _ => false }

/-- Claim C1 counterexample: when the duplicate-load `SELECT` raises, the
`except Exception: return set()` branch makes the loop check against an empty
key set, so a job whose key matches a stored row of the same category is
inserted anyway and the `duplicates` counter stays 0. -/
theorem import_jobs_bulk_duplicate_counterexample :
    rowKey (jobRowOf lEnv wJob.category wJob) ∈ existingKeys [wRow] wJob.category ∧
    insertedRows (import_jobs_bulk lEnv [wJob] [wRow]).1.outcomes
      = [jobRowOf lEnv wJob.category wJob] ∧
    (import_jobs_bulk lEnv [wJob] [wRow]).1.stats.duplicates = 0 := by
  decide

/-- Claim C4 witness: with all commits succeeding, a concrete one-job run
returns statistics satisfying the partition equation. -/
theorem import_jobs_bulk_stats_partition_witness :
    ({ total := 1, imported := 1, duplicates := 0, failed := 0 } : ImportStats).imported
        + ({ total := 1, imported := 1, duplicates := 0, failed := 0 } : ImportStats).duplicates
        + ({ total := 1, imported := 1, duplicates := 0, failed := 0 } : ImportStats).failed
      = ({ total := 1, imported := 1, duplicates := 0, failed := 0 } : ImportStats).total ∧
    ({ total := 1, imported := 1, duplicates := 0, failed := 0 } : ImportStats).total
      = ([wJob] : List JobInput).length :=
  import_jobs_bulk_stats_partition wEnv [wJob] [] (fun _ => rfl)
    { total := 1, imported := 1, duplicates := 0, failed := 0 } (by decide)

/-! ### The job router (`src/api/job_router.py`) -/

/-- Modelled from the spec: the `Job` ORM entity (`models.py` is not among the
source files; spec §3 describes "a single `Job` entity with descriptive string
fields …, an image reference, and a posting timestamp"; the fields are those
the router reads and writes, including `id`, `job_slug` and `image_filename`). -/
structure Job where
  id : Nat
  job_slug : String
  category : String
  company_name : String
  job_role : String
  website_link : Option String
  state : String
  city : String
  experience : String
  qualification : String
  batch : Option String
  salary_package : Option String
  job_description : String
  key_responsibility : Option String
  about_company : Option String
  selection_process : Option String
  image : Option String
  image_filename : Option String
  posted_on : PyDateTime
deriving DecidableEq, Repr

/-- `not s or not s.strip()` on a Python string: true for the empty string and
for whitespace-only strings. -/
def isBlank (s : String) : Bool := (stripEnds pyIsSpace s.data).isEmpty

/-- `not v or not v.strip()` on an optional string (`None` is falsy). -/
def optBlank (o : Option String) : Bool :=
  match o with
  | none => true
  | some v => isBlank v

/-- `website_link and not website_link.strip()`: rejected only when provided,
non-empty, and whitespace-only. -/
def wlBad (o : Option String) : Bool :=
  match o with
  | none => false
  | some w => !(w == "") && isBlank w

/-- The multipart form of `POST /jobs/` (`create_job`, lines 39–56): a field
that is absent from the request is `none`. -/
structure CreateJobForm where
  category : Option String
  company_name : Option String
  job_role : Option String
  website_link : Option String
  state : Option String
  city : Option String
  experience : Option String
  qualification : Option String
  batch : Option String
  salary_package : Option String
  job_description : Option String
  key_responsibility : Option String
  about_company : Option String
  selection_process : Option String
  image : Option String
deriving DecidableEq, Repr

inductive CreateJobResult where
  | unprocessable422
  | badRequest400 (detail : String)
  | created (j : Job)
  | serverError500
deriving DecidableEq, Repr

/-- Environment of one `create_job` request: whether the DB commit succeeds,
the server-generated timestamp and primary key. -/
structure CreateEnv where
  commitOk : Bool
  now : PyDateTime
  newId : Nat

/-- The combined body-validation condition of `create_job` (lines 62–84), in
source order; `experience` is *not* among the validated fields. -/
def validationFails (f : CreateJobForm)
    (category company_name job_role state city qualification job_description : String) :
    Bool :=
  isBlank category || isBlank company_name || isBlank job_role || isBlank state ||
  isBlank city || wlBad f.website_link || isBlank qualification ||
  isBlank job_description || optBlank f.key_responsibility ||
  optBlank f.about_company || optBlank f.selection_process

/-- The `Job(...)` instance built by `create_job` (lines 89–105); `id`,
`job_slug` and `posted_on` are server-side defaults outside the form. -/
def newJobOf (env : CreateEnv) (f : CreateJobForm)
    (category company_name job_role state city experience qualification
      job_description : String) : Job :=
  { id := env.newId
    job_slug := ""
    category := category
    company_name := company_name
    job_role := job_role
    website_link := f.website_link
    state := state
    city := city
    experience := experience
    qualification := qualification
    batch := f.batch
    salary_package := f.salary_package
    job_description := job_description
    key_responsibility := f.key_responsibility
    about_company := f.about_company
    selection_process := f.selection_process
    image := f.image
    image_filename := none
    posted_on := env.now }

/-- `create_job` from `src/api/job_router.py` (lines 38–116). The framework
rejects a request missing a `Form(...)`-required field with 422 before the
handler runs; the handler then validates the listed fields (400) and finally
adds and commits the new row — a failing commit is rolled back and surfaced as
a generic 500. The returned triple is (response, jobs table, rollback issued).



Checked fields in source order: category, company_name, job_role, state, city,
website_link (only if provided), qualification, job_description,
key_responsibility, about_company, selection_process. -/
def create_job (env : CreateEnv) (db : List Job) (f : CreateJobForm) :
    CreateJobResult × List Job × Bool :=
  match f.category with
  | none => (CreateJobResult.unprocessable422, db, false)
  | some category =>
  match f.company_name with
  | none => (CreateJobResult.unprocessable422, db, false)
  | some company_name =>
  match f.job_role with
  | none => (CreateJobResult.unprocessable422, db, false)
  | some job_role =>
  match f.state with
  | none => (CreateJobResult.unprocessable422, db, false)
  | some state =>
  match f.city with
  | none => (CreateJobResult.unprocessable422, db, false)
  | some city =>
  match f.experience with
  | none => (CreateJobResult.unprocessable422, db, false)
  | some experience =>
  match f.qualification with
  | none => (CreateJobResult.unprocessable422, db, false)
  | some qualification =>
  match f.job_description with
  | none => (CreateJobResult.unprocessable422, db, false)
  | some job_description =>
  if isBlank category then (CreateJobResult.badRequest400 "Category is required", db, false)
  else if isBlank company_name then
    (CreateJobResult.badRequest400 "Company name is required", db, false)
  else if isBlank job_role then
    (CreateJobResult.badRequest400 "Job role is required", db, false)
  else if isBlank state then (CreateJobResult.badRequest400 "State is required", db, false)
  else if isBlank city then (CreateJobResult.badRequest400 "City is required", db, false)
  else if wlBad f.website_link then
    (CreateJobResult.badRequest400 "Website link cannot be empty if provided", db, false)
  else if isBlank qualification then
    (CreateJobResult.badRequest400 "Qualification is required", db, false)
  else if isBlank job_description then
    (CreateJobResult.badRequest400 "Job description is required", db, false)
  else if optBlank f.key_responsibility then
    (CreateJobResult.badRequest400 "Key responsibility is required", db, false)
  else if optBlank f.about_company then
    (CreateJobResult.badRequest400 "About company is required", db, false)
  else if optBlank f.selection_process then
    (CreateJobResult.badRequest400 "Selection process is required", db, false)
  else if env.commitOk then
    (CreateJobResult.created
        (newJobOf env f category company_name job_role state city experience
          qualification job_description),
      db ++ [newJobOf env f category company_name job_role state city experience
          qualification job_description],
      false)
  else (CreateJobResult.serverError500, db, true)

/-- The multipart form of `PUT /jobs/{job_id}` (`update_job`, lines 362–381);
required/optional exactly as declared there (no `image` string field — the
image arrives as an optional file upload). -/
structure UpdateJobForm where
  category : String
  company_name : String
  job_role : String
  website_link : Option String
  state : String
  city : String
  experience : String
  qualification : String
  batch : Option String
  salary_package : Option String
  job_description : String
  key_responsibility : Option String
  about_company : Option String
  selection_process : Option String
deriving DecidableEq, Repr

/-- An uploaded file: its filename and (opaque) byte content. -/
structure UploadedImage where
  filename : String
  content : String
deriving DecidableEq, Repr

inductive UpdateResult where
  | notFound404
  | ok (j : Job)
deriving DecidableEq, Repr

/-- `update_job` from `src/api/job_router.py` (lines 361–410): look up the row
by id (404 when absent), assign the fourteen form fields, assign
`image`/`image_filename` only when a file was uploaded, commit, and return the
refreshed row. Fields never assigned (`id`, `job_slug`, `posted_on`) keep
their stored values. -/
def update_job (db : List Job) (job_id : Nat) (f : UpdateJobForm)
    (image : Option UploadedImage) : UpdateResult × List Job :=
  match db.find? (fun j => j.id == job_id) with
  | none => (UpdateResult.notFound404, db)
  | some db_job =>
    let j2 : Job :=
      { db_job with
        category := f.category
        company_name := f.company_name
        job_role := f.job_role
        website_link := f.website_link
        state := f.state
        city := f.city
        experience := f.experience
        qualification := f.qualification
        batch := f.batch
        salary_package := f.salary_package
        job_description := f.job_description
        key_responsibility := f.key_responsibility
        about_company := f.about_company
        selection_process := f.selection_process }
    let j3 : Job :=
      match image with
      | some up => { j2 with image := some up.content, image_filename := some up.filename }
      | none => j2
    (UpdateResult.ok j3, db.map (fun x => if x.id == job_id then j3 else x))

/-- Full characterization of `create_job`: 422 when a framework-required field
is missing; 400 (with the database untouched) when the body validation fires;
otherwise commit-dependent creation or rollback-plus-500. -/
theorem create_job_char (env : CreateEnv) (db : List Job) (f : CreateJobForm) :
    ((f.category = none ∨ f.company_name = none ∨ f.job_role = none ∨ f.state = none ∨
      f.city = none ∨ f.experience = none ∨ f.qualification = none ∨
      f.job_description = none) →
      create_job env db f = (CreateJobResult.unprocessable422, db, false)) ∧
    (∀ category company_name job_role state city experience qualification job_description,
      f.category = some category → f.company_name = some company_name →
      f.job_role = some job_role → f.state = some state → f.city = some city →
      f.experience = some experience → f.qualification = some qualification →
      f.job_description = some job_description →
      (validationFails f category company_name job_role state city qualification
          job_description = true →
        ∃ d, create_job env db f = (CreateJobResult.badRequest400 d, db, false)) ∧
      (validationFails f category company_name job_role state city qualification
          job_description = false →
        create_job env db f =
          (if env.commitOk then
            (CreateJobResult.created
                (newJobOf env f category company_name job_role state city experience
                  qualification job_description),
              db ++ [newJobOf env f category company_name job_role state city experience
                  qualification job_description],
              false)
          else (CreateJobResult.serverError500, db, true)))) := by
  constructor
  · intro h
    rcases hc1 : f.category with _ | category
    · unfold create_job
      rw [hc1]
    · rcases hc2 : f.company_name with _ | company_name
      · unfold create_job
        rw [hc1, hc2]
      · rcases hc3 : f.job_role with _ | job_role
        · unfold create_job
          rw [hc1, hc2, hc3]
        · rcases hc4 : f.state with _ | state
          · unfold create_job
            rw [hc1, hc2, hc3, hc4]
          · rcases hc5 : f.city with _ | city
            · unfold create_job
              rw [hc1, hc2, hc3, hc4, hc5]
            · rcases hc6 : f.experience with _ | experience
              · unfold create_job
                rw [hc1, hc2, hc3, hc4, hc5, hc6]
              · rcases hc7 : f.qualification with _ | qualification
                · unfold create_job
                  rw [hc1, hc2, hc3, hc4, hc5, hc6, hc7]
                · rcases hc8 : f.job_description with _ | job_description
                  · unfold create_job
                    rw [hc1, hc2, hc3, hc4, hc5, hc6, hc7, hc8]
                  · exfalso
                    simp [hc1, hc2, hc3, hc4, hc5, hc6, hc7, hc8] at h
  · intro category company_name job_role state city experience qualification
      job_description h1 h2 h3 h4 h5 h6 h7 h8
    have he : create_job env db f =
        (if isBlank category then
          (CreateJobResult.badRequest400 "Category is required", db, false)
        else if isBlank company_name then
          (CreateJobResult.badRequest400 "Company name is required", db, false)
        else if isBlank job_role then
          (CreateJobResult.badRequest400 "Job role is required", db, false)
        else if isBlank state then
          (CreateJobResult.badRequest400 "State is required", db, false)
        else if isBlank city then
          (CreateJobResult.badRequest400 "City is required", db, false)
        else if wlBad f.website_link then
          (CreateJobResult.badRequest400 "Website link cannot be empty if provided", db, false)
        else if isBlank qualification then
          (CreateJobResult.badRequest400 "Qualification is required", db, false)
        else if isBlank job_description then
          (CreateJobResult.badRequest400 "Job description is required", db, false)
        else if optBlank f.key_responsibility then
          (CreateJobResult.badRequest400 "Key responsibility is required", db, false)
        else if optBlank f.about_company then
          (CreateJobResult.badRequest400 "About company is required", db, false)
        else if optBlank f.selection_process then
          (CreateJobResult.badRequest400 "Selection process is required", db, false)
        else if env.commitOk then
          (CreateJobResult.created
              (newJobOf env f category company_name job_role state city experience
                qualification job_description),
            db ++ [newJobOf env f category company_name job_role state city experience
                qualification job_description],
            false)
        else (CreateJobResult.serverError500, db, true)) := by
      unfold create_job
      rw [h1, h2, h3, h4, h5, h6, h7, h8]
    constructor
    · intro hcond
      by_cases hb1 : isBlank category = true
      · exact ⟨"Category is required", by rw [he, if_pos hb1]⟩
      · by_cases hb2 : isBlank company_name = true
        · exact ⟨"Company name is required", by rw [he, if_neg hb1, if_pos hb2]⟩
        · by_cases hb3 : isBlank job_role = true
          · exact ⟨"Job role is required", by rw [he, if_neg hb1, if_neg hb2, if_pos hb3]⟩
          · by_cases hb4 : isBlank state = true
            · exact ⟨"State is required",
                by rw [he, if_neg hb1, if_neg hb2, if_neg hb3, if_pos hb4]⟩
            · by_cases hb5 : isBlank city = true
              · exact ⟨"City is required",
                  by rw [he, if_neg hb1, if_neg hb2, if_neg hb3, if_neg hb4, if_pos hb5]⟩
              · by_cases hb6 : wlBad f.website_link = true
                · exact ⟨"Website link cannot be empty if provided",
                    by rw [he, if_neg hb1, if_neg hb2, if_neg hb3, if_neg hb4, if_neg hb5,
                      if_pos hb6]⟩
                · by_cases hb7 : isBlank qualification = true
                  · exact ⟨"Qualification is required",
                      by rw [he, if_neg hb1, if_neg hb2, if_neg hb3, if_neg hb4, if_neg hb5,
                        if_neg hb6, if_pos hb7]⟩
                  · by_cases hb8 : isBlank job_description = true
                    · exact ⟨"Job description is required",
                        by rw [he, if_neg hb1, if_neg hb2, if_neg hb3, if_neg hb4, if_neg hb5,
                          if_neg hb6, if_neg hb7, if_pos hb8]⟩
                    · by_cases hb9 : optBlank f.key_responsibility = true
                      · exact ⟨"Key responsibility is required",
                          by rw [he, if_neg hb1, if_neg hb2, if_neg hb3, if_neg hb4, if_neg hb5,
                            if_neg hb6, if_neg hb7, if_neg hb8, if_pos hb9]⟩
                      · by_cases hb10 : optBlank f.about_company = true
                        · exact ⟨"About company is required",
                            by rw [he, if_neg hb1, if_neg hb2, if_neg hb3, if_neg hb4,
                              if_neg hb5, if_neg hb6, if_neg hb7, if_neg hb8, if_neg hb9,
                              if_pos hb10]⟩
                        · by_cases hb11 : optBlank f.selection_process = true
                          · exact ⟨"Selection process is required",
                              by rw [he, if_neg hb1, if_neg hb2, if_neg hb3, if_neg hb4,
                                if_neg hb5, if_neg hb6, if_neg hb7, if_neg hb8, if_neg hb9,
                                if_neg hb10, if_pos hb11]⟩
                          · exfalso
                            unfold validationFails at hcond
                            simp [hb1, hb2, hb3, hb4, hb5, hb6, hb7, hb8, hb9, hb10,
                              hb11] at hcond
    · intro hcond
      unfold validationFails at hcond
      simp only [Bool.or_eq_false_iff] at hcond
      obtain ⟨⟨⟨⟨⟨⟨⟨⟨⟨⟨hb1, hb2⟩, hb3⟩, hb4⟩, hb5⟩, hb6⟩, hb7⟩, hb8⟩, hb9⟩, hb10⟩, hb11⟩ := hcond
      rw [he, if_neg (by simp [hb1]), if_neg (by simp [hb2]), if_neg (by simp [hb3]),
        if_neg (by simp [hb4]), if_neg (by simp [hb5]), if_neg (by simp [hb6]),
        if_neg (by simp [hb7]), if_neg (by simp [hb8]), if_neg (by simp [hb9]),
        if_neg (by simp [hb10]), if_neg (by simp [hb11])]

/-- Claim C6 (amended): `create_job` rejects with HTTP 400 — creating no row —
whenever one of the ten fields it validates (category, company_name, job_role,
state, city, qualification, job_description, key_responsibility,
about_company, selection_process, plus a provided-but-whitespace
website_link) is empty or whitespace-only; a framework-required field that is
missing entirely is rejected with 422, also creating no row. `experience` is
required by the framework but never validated for blankness. -/
theorem create_job_required_fields (env : CreateEnv) (db : List Job) (f : CreateJobForm) :
    ((f.category = none ∨ f.company_name = none ∨ f.job_role = none ∨ f.state = none ∨
      f.city = none ∨ f.experience = none ∨ f.qualification = none ∨
      f.job_description = none) →
      (create_job env db f).1 = CreateJobResult.unprocessable422 ∧
      (create_job env db f).2.1 = db) ∧
    (∀ category company_name job_role state city experience qualification job_description,
      f.category = some category → f.company_name = some company_name →
      f.job_role = some job_role → f.state = some state → f.city = some city →
      f.experience = some experience → f.qualification = some qualification →
      f.job_description = some job_description →
      validationFails f category company_name job_role state city qualification
          job_description = true →
      ∃ d, (create_job env db f).1 = CreateJobResult.badRequest400 d ∧
        (create_job env db f).2.1 = db) := by
  obtain ⟨hA, hB⟩ := create_job_char env db f
  constructor
  · intro h
    rw [hA h]
    exact ⟨rfl, rfl⟩
  · intro category company_name job_role state city experience qualification
      job_description h1 h2 h3 h4 h5 h6 h7 h8 hcond
    obtain ⟨d, hd⟩ := (hB category company_name job_role state city experience
      qualification job_description h1 h2 h3 h4 h5 h6 h7 h8).1 hcond
    exact ⟨d, by rw [hd], by rw [hd]⟩

def xEnv : CreateEnv := { commitOk := true, now := ⟨2025, 1, 1, 0, 0, 0⟩, newId := 1 }

/-- A form whose `experience` is whitespace-only and whose other fields are
all valid. -/
def xForm : CreateJobForm :=
  { category := some "Remote", company_name := some "Acme", job_role := some "Dev",
    website_link := none, state := some "TN", city := some "Chennai",
    experience := some " ", qualification := some "BE",
    batch := none, salary_package := none, job_description := some "desc",
    key_responsibility := some "kr", about_company := some "about",
    selection_process := some "sp", image := none }

def xJob : Job :=
  { id := 1, job_slug := "", category := "Remote", company_name := "Acme",
    job_role := "Dev", website_link := none, state := "TN", city := "Chennai",
    experience := " ", qualification := "BE", batch := none, salary_package := none,
    job_description := "desc", key_responsibility := some "kr",
    about_company := some "about", selection_process := some "sp", image := none,
    image_filename := none, posted_on := ⟨2025, 1, 1, 0, 0, 0⟩ }

/-- Claim C6 counterexample: a whitespace-only `experience` — a required field
per the claim — is *not* rejected: the job is created (201), with a row
stored, instead of a 400 rejection. -/
theorem create_job_experience_counterexample :
    xForm.experience = some " " ∧ isBlank " " = true ∧
    create_job xEnv [] xForm = (CreateJobResult.created xJob, [xJob], false) := by
  decide

def nForm : CreateJobForm := { xForm with category := none }

/-- Claim C6 witness: a request missing the required `category` form field is
rejected by the framework with 422 and stores nothing. -/
theorem create_job_required_fields_witness :
    (create_job xEnv [] nForm).1 = CreateJobResult.unprocessable422 ∧
    (create_job xEnv [] nForm).2.1 = ([] : List Job) :=
  (create_job_required_fields xEnv [] nForm).1 (Or.inl rfl)

/-- Claim C7 (amended): `update_job` on an existing row overwrites exactly the
fourteen submitted form fields; `image`/`image_filename` change only when a
file is uploaded; `id`, `job_slug` and `posted_on` always keep their stored
values (so the update is not a full overwrite of the record). -/
theorem update_job_overwrite (db : List Job) (job_id : Nat) (f : UpdateJobForm)
    (image : Option UploadedImage) :
    (db.find? (fun j => j.id == job_id) = none →
      update_job db job_id f image = (UpdateResult.notFound404, db)) ∧
    (∀ db_job, db.find? (fun j => j.id == job_id) = some db_job →
      ∀ j2, (update_job db job_id f image).1 = UpdateResult.ok j2 →
        j2.category = f.category ∧ j2.company_name = f.company_name ∧
        j2.job_role = f.job_role ∧ j2.website_link = f.website_link ∧
        j2.state = f.state ∧ j2.city = f.city ∧ j2.experience = f.experience ∧
        j2.qualification = f.qualification ∧ j2.batch = f.batch ∧
        j2.salary_package = f.salary_package ∧
        j2.job_description = f.job_description ∧
        j2.key_responsibility = f.key_responsibility ∧
        j2.about_company = f.about_company ∧
        j2.selection_process = f.selection_process ∧
        j2.id = db_job.id ∧ j2.job_slug = db_job.job_slug ∧
        j2.posted_on = db_job.posted_on ∧
        (image = none → j2.image = db_job.image ∧
          j2.image_filename = db_job.image_filename) ∧
        (∀ up, image = some up → j2.image = some up.content ∧
          j2.image_filename = some up.filename)) := by
  constructor
  · intro h
    unfold update_job
    rw [h]
  · intro db_job hfind j2 hok
    unfold update_job at hok
    rw [hfind] at hok
    rcases image with _ | up
    · dsimp only at hok
      have hj := (UpdateResult.ok.inj hok).symm
      subst hj
      refine ⟨rfl, rfl, rfl, rfl, rfl, rfl, rfl, rfl, rfl, rfl, rfl, rfl, rfl, rfl,
        rfl, rfl, rfl, fun _ => ⟨rfl, rfl⟩, ?_⟩
      intro up hup
      exact absurd hup (by simp)
    · dsimp only at hok
      have hj := (UpdateResult.ok.inj hok).symm
      subst hj
      refine ⟨rfl, rfl, rfl, rfl, rfl, rfl, rfl, rfl, rfl, rfl, rfl, rfl, rfl, rfl,
        rfl, rfl, rfl, ?_, ?_⟩
      · intro h
        exact absurd h (by simp)
      · intro up' hup
        have : up = up' := Option.some.inj hup
        rw [← this]
        exact ⟨rfl, rfl⟩

def uForm : UpdateJobForm :=
  { category := "C", company_name := "CN", job_role := "R", website_link := none,
    state := "S", city := "T", experience := "E", qualification := "Q",
    batch := none, salary_package := none, job_description := "D",
    key_responsibility := none, about_company := none, selection_process := none }

def uJob1 : Job :=
  { id := 1, job_slug := "slug-1", category := "c0", company_name := "cn0",
    job_role := "r0", website_link := none, state := "s0", city := "t0",
    experience := "e0", qualification := "q0", batch := none, salary_package := none,
    job_description := "d0", key_responsibility := none, about_company := none,
    selection_process := none, image := some "old.png", image_filename := none,
    posted_on := ⟨2020, 1, 1, 0, 0, 0⟩ }

def uJob2 : Job := { uJob1 with posted_on := ⟨2021, 2, 2, 0, 0, 0⟩ }

/-- The updated row of a successful PUT, if any. -/
def updatedJob : UpdateResult → Option Job
  | UpdateResult.ok j => some j
  | UpdateResult.notFound404 => none

/-- Claim C7 counterexample: two stored jobs that differ only in `posted_on`
receive the same PUT, yet the resulting records differ — and the stored
`image` survives a PUT without an upload — so some fields keep their previous
values rather than being overwritten by the request. -/
theorem update_job_counterexample :
    (update_job [uJob1] 1 uForm none).1 ≠ (update_job [uJob2] 1 uForm none).1 ∧
    uJob1.posted_on ≠ uJob2.posted_on ∧
    ((updatedJob (update_job [uJob1] 1 uForm none).1).map Job.image)
      = some (some "old.png") := by
  decide

/-- Claim C7 witness: a PUT to an id that is not stored returns 404 and leaves
the table unchanged. -/
theorem update_job_overwrite_witness :
    update_job [uJob1] 2 uForm none = (UpdateResult.notFound404, [uJob1]) :=
  (update_job_overwrite [uJob1] 2 uForm none).1 (by decide)

/-- Claim C5 (amended): a database error during `create_job`'s write triggers a
rollback and a generic 500 with no row stored; in bulk import, an error that
escapes the per-job handler (the final commit) triggers a rollback and the CSV
endpoint's 500 — while a per-job insert error is merely skipped and counted
(see the counterexample). -/
theorem db_write_error_rollback_500 :
    (∀ (env : CreateEnv) (db : List Job) (f : CreateJobForm)
      (category company_name job_role state city experience qualification
        job_description : String),
      f.category = some category → f.company_name = some company_name →
      f.job_role = some job_role → f.state = some state → f.city = some city →
      f.experience = some experience → f.qualification = some qualification →
      f.job_description = some job_description →
      validationFails f category company_name job_role state city qualification
          job_description = false →
      env.commitOk = false →
      create_job env db f = (CreateJobResult.serverError500, db, true)) ∧
    (∀ (env : BulkEnv) (jobs : List JobInput) (rows : List JobRow) (e : String),
      (import_jobs_bulk env jobs rows).2 = Except.error e →
      DbAction.rollback ∈ (import_jobs_bulk env jobs rows).1.actions ∧
      create_jobs_bulk_csv env jobs rows
        = CsvResult.error500 ("Import failed: " ++ e)) := by
  constructor
  · intro env db f category company_name job_role state city experience qualification
      job_description h1 h2 h3 h4 h5 h6 h7 h8 hval hcommit
    have hr := ((create_job_char env db f).2 category company_name job_role state city
      experience qualification job_description h1 h2 h3 h4 h5 h6 h7 h8).2 hval
    rw [hr, hcommit]
    simp
  · intro env jobs rows e herr
    constructor
    · unfold import_jobs_bulk at herr ⊢
      simp only at herr ⊢
      split at herr
      · exact absurd herr (by simp)
      · split
        · rename_i hc1 hc2
          exact absurd hc2 hc1
        · dsimp only
          apply List.mem_append_right
          exact List.mem_cons_of_mem _ (List.mem_cons_self _ _)
    · unfold create_jobs_bulk_csv
      rw [herr]

/-- An environment in which every `INSERT` raises and every commit succeeds. -/
def fEnv : BulkEnv :=
  { strptime := fun _ _ => none, now := ⟨2025, 1, 1, 0, 0, 0⟩,
    insertOk := fun _ => false, commitOk := fun _ => true,
    loadOk := fun _ => true }

def CsvResult.is500 : CsvResult → Bool
  | CsvResult.error500 _ => true
  | CsvResult.ok _ => false

/-- Claim C5 counterexample: a database error on an individual `INSERT` during
bulk import is caught by the per-job handler: the job is counted in `failed`,
no rollback is issued, the import returns normally, and the client receives a
success response rather than a 500. -/
theorem db_write_error_counterexample :
    fEnv.insertOk (jobRowOf fEnv wJob.category wJob) = false ∧
    (import_jobs_bulk fEnv [wJob] []).2
      = Except.ok { total := 1, imported := 0, duplicates := 0, failed := 1 } ∧
    DbAction.rollback ∉ (import_jobs_bulk fEnv [wJob] []).1.actions ∧
    (create_jobs_bulk_csv fEnv [wJob] []).is500 = false := by
  decide

def cFailEnv : CreateEnv := { commitOk := false, now := ⟨2025, 1, 1, 0, 0, 0⟩, newId := 1 }

/-- Claim C5 witness: on a valid form with a failing commit, `create_job`
rolls back, stores nothing, and returns the generic 500. -/
theorem db_write_error_rollback_500_witness :
    create_job cFailEnv [] xForm = (CreateJobResult.serverError500, [], true) :=
  db_write_error_rollback_500.1 cFailEnv [] xForm "Remote" "Acme" "Dev" "TN" "Chennai"
    " " "BE" "desc" rfl rfl rfl rfl rfl rfl rfl rfl (by decide) rfl

/-! ### `_save_bytes_atomic` (`src/image_processor.py` lines 20–32, claim C3) -/

/-- One observable file-system operation issued while caching a logo. Writing
the payload is decomposed into per-byte appends so that *every* intermediate
on-disk state is represented. -/
inductive FsOp where
  | mkdirParents (dir : String)
  | createFile (p : String)
  | appendByte (p : String) (b : Nat)
  | rename (src dst : String)
deriving DecidableEq, Repr

/-- A file system: contents (byte list) per existing path. -/
def FS : Type := String → Option (List Nat)

def applyOp (fs : FS) : FsOp → FS
  | FsOp.mkdirParents _ => fs
  | FsOp.createFile p => fun q => if q = p then some [] else fs q
  | FsOp.appendByte p b => fun q => if q = p then some ((fs p).getD [] ++ [b]) else fs q
  | FsOp.rename src dst => fun q =>
      if q = dst then fs src else if q = src then none else fs q

def runOps (fs : FS) (ops : List FsOp) : FS := ops.foldl applyOp fs

/-- The parent directory of a path (up to the final `/`). -/
def parentOf (p : String) : String :=
  String.mk ((p.data.reverse.dropWhile (fun c => !(c = '/'))).reverse)

/-- The temporary path of `_save_bytes_atomic`:
`dest.with_suffix(dest.suffix + ".part")` when `dest` has a suffix (replacing
`.ext` by `.ext.part`) and `dest.with_name(dest.name + ".part")` otherwise —
in both cases the original path with `".part"` appended. -/
def tmpName (dest : String) : String := dest ++ ".part"

/-- The file-system trace of `_save_bytes_atomic(dest, data)`: ensure the
parent directory, truncate-open the temporary file, write the payload, then
`tmp.replace(dest)` (`os.replace`, a single atomic rename). -/
def save_bytes_atomic_ops (dest : String) (data : List Nat) : List FsOp :=
  FsOp.mkdirParents (parentOf dest) :: FsOp.createFile (tmpName dest) ::
    (data.map (fun b => FsOp.appendByte (tmpName dest) b)
      ++ [FsOp.rename (tmpName dest) dest])

/-- The paths an operation can modify. -/
def opWrites : FsOp → List String
  | FsOp.mkdirParents _ => []
  | FsOp.createFile p => [p]
  | FsOp.appendByte p _ => [p]
  | FsOp.rename src dst => [src, dst]

theorem applyOp_unchanged (fs : FS) (op : FsOp) (q : String) (h : q ∉ opWrites op) :
    applyOp fs op q = fs q := by
  cases op with
  | mkdirParents d => rfl
  | createFile p =>
    have : q ≠ p := by simp [opWrites] at h; exact h
    simp [applyOp, this]
  | appendByte p b =>
    have : q ≠ p := by simp [opWrites] at h; exact h
    simp [applyOp, this]
  | rename src dst =>
    have h2 : q ≠ src ∧ q ≠ dst := by simp [opWrites] at h; exact h
    simp [applyOp, h2.1, h2.2]

theorem runOps_unchanged (q : String) :
    ∀ (ops : List FsOp) (fs : FS), (∀ op ∈ ops, q ∉ opWrites op) →
    runOps fs ops q = fs q := by
  intro ops
  induction ops with
  | nil => intro fs _; rfl
  | cons op rest ih =>
    intro fs h
    show runOps (applyOp fs op) rest q = fs q
    rw [ih (applyOp fs op) (fun o ho => h o (List.mem_cons_of_mem _ ho))]
    exact applyOp_unchanged fs op q (h op (List.mem_cons_self _ _))

theorem runOps_appends (tmp : String) :
    ∀ (bytes : List Nat) (fs : FS) (acc : List Nat), fs tmp = some acc →
    runOps fs (bytes.map (fun b => FsOp.appendByte tmp b)) tmp = some (acc ++ bytes) := by
  intro bytes
  induction bytes with
  | nil =>
    intro fs acc h
    show fs tmp = some (acc ++ [])
    rw [List.append_nil]
    exact h
  | cons b rest ih =>
    intro fs acc h
    show runOps (applyOp fs (FsOp.appendByte tmp b)) (rest.map _) tmp = _
    have hstep : applyOp fs (FsOp.appendByte tmp b) tmp = some (acc ++ [b]) := by
      simp [applyOp, h]
    rw [ih _ (acc ++ [b]) hstep, List.append_assoc]
    rfl

theorem tmpName_ne (dest : String) : tmpName dest ≠ dest := by
  intro h
  have hl := congrArg String.length h
  rw [tmpName, String.length_append] at hl
  simp at hl
  exact absurd hl (by decide)

/-- Claim C3: `_save_bytes_atomic` first writes all bytes to the separate
temporary `.part` file and then updates the destination with a single rename:
after every prefix of its operations, the destination either still holds its
previous content (or does not exist, whichever was the prior state) or holds
the complete new content; after the full sequence it holds exactly the new
bytes. The temporary path is always distinct from the destination, so the
destination never holds a partially written file. -/
theorem save_bytes_atomic_spec (fs0 : FS) (dest : String) (data : List Nat) :
    tmpName dest ≠ dest ∧
    (∀ i : Nat,
      runOps fs0 ((save_bytes_atomic_ops dest data).take i) dest = fs0 dest ∨
      runOps fs0 ((save_bytes_atomic_ops dest data).take i) dest = some data) ∧
    runOps fs0 (save_bytes_atomic_ops dest data) dest = some data := by
  have hne := tmpName_ne dest
  -- the operations before the final rename
  have hpre_writes : ∀ op ∈ (FsOp.mkdirParents (parentOf dest) ::
      FsOp.createFile (tmpName dest) ::
      data.map (fun b => FsOp.appendByte (tmpName dest) b)),
      dest ∉ opWrites op := by
    intro op hop
    rcases List.mem_cons.mp hop with hop | hop
    · rw [hop]; simp [opWrites]
    rcases List.mem_cons.mp hop with hop | hop
    · rw [hop]; simp [opWrites]; exact fun he => hne he.symm
    · rcases List.mem_map.mp hop with ⟨b, _, hb⟩
      rw [← hb]
      simp [opWrites]
      exact fun he => hne he.symm
  have hops : save_bytes_atomic_ops dest data
      = (FsOp.mkdirParents (parentOf dest) :: FsOp.createFile (tmpName dest) ::
          data.map (fun b => FsOp.appendByte (tmpName dest) b))
        ++ [FsOp.rename (tmpName dest) dest] := by
    simp [save_bytes_atomic_ops]
  have htmp : runOps fs0 (FsOp.mkdirParents (parentOf dest) ::
      FsOp.createFile (tmpName dest) ::
      data.map (fun b => FsOp.appendByte (tmpName dest) b)) (tmpName dest)
      = some data := by
    show runOps (applyOp (applyOp fs0 (FsOp.mkdirParents (parentOf dest)))
      (FsOp.createFile (tmpName dest))) (data.map _) (tmpName dest) = some data
    have hcreate : (applyOp (applyOp fs0 (FsOp.mkdirParents (parentOf dest)))
        (FsOp.createFile (tmpName dest))) (tmpName dest) = some [] := by
      simp [applyOp]
    rw [runOps_appends (tmpName dest) data _ [] hcreate]
    rfl
  have hfull : runOps fs0 (save_bytes_atomic_ops dest data) dest = some data := by
    rw [hops, runOps, List.foldl_append]
    show applyOp (runOps fs0 _) (FsOp.rename (tmpName dest) dest) dest = some data
    simp only [applyOp, if_pos rfl]
    exact htmp
  refine ⟨hne, ?_, hfull⟩
  intro i
  rcases Nat.lt_or_ge (FsOp.mkdirParents (parentOf dest) ::
      FsOp.createFile (tmpName dest) ::
      data.map (fun b => FsOp.appendByte (tmpName dest) b)).length i with hgt | hle
  · right
    have hlen : (FsOp.mkdirParents (parentOf dest) :: FsOp.createFile (tmpName dest) ::
        data.map (fun b => FsOp.appendByte (tmpName dest) b)).length = data.length + 2 := by
      simp
    rw [hops, List.take_append_eq_append_take,
      List.take_of_length_le (Nat.le_of_lt hgt),
      List.take_of_length_le (by rw [List.length_singleton]; omega)]
    rw [← hops]
    exact hfull
  · left
    rw [hops, List.take_append_of_le_length hle]
    apply runOps_unchanged
    intro op hop
    exact hpre_writes op (List.take_subset i _ hop)

/-- An empty file system for the atomic-save witness. -/
def emptyFS : FS := fun _ => none

/-- Claim C3 witness: a concrete save run leaves the complete payload at the
destination. -/
theorem save_bytes_atomic_spec_witness :
    runOps emptyFS (save_bytes_atomic_ops "logos/acme.png" [7, 8, 9]) "logos/acme.png"
      = some [7, 8, 9] :=
  (save_bytes_atomic_spec emptyFS "logos/acme.png" [7, 8, 9]).2.2

/-! ### The dynamic image resolver (`src/image_processor.py` lines 34–194, claim C2) -/

/-- `Path(p).name`: the final path component (pathlib's normalization of
trailing slashes is not modelled; the served request names carry none). -/
def pathName (p : String) : String :=
  String.mk ((p.data.reverse.takeWhile (fun c => !(c = '/'))).reverse)

/-- `Path(name).suffix`: the extension from the final dot, empty when the dot
is the first or last character of the name or absent. -/
def pathSuffix (name : String) : String :=
  let rev := name.data.reverse
  let after := rev.takeWhile (fun c => !(c = '.'))
  if 1 ≤ after.length ∧ after.length + 1 < rev.length then
    String.mk ('.' :: after.reverse)
  else ""

/-- `Path(name).stem`: the name with `pathSuffix` removed. -/
def pathStem (name : String) : String :=
  let rev := name.data.reverse
  let after := rev.takeWhile (fun c => !(c = '.'))
  if 1 ≤ after.length ∧ after.length + 1 < rev.length then
    String.mk ((rev.drop (after.length + 1)).reverse)
  else name

example : pathName "logos/Acme.PNG" = "Acme.PNG" := by decide
example : pathSuffix "Acme.PNG" = ".PNG" := by decide
example : pathStem "Acme.PNG" = "Acme" := by decide
example : pathSuffix ".bashrc" = "" := by decide
example : pathStem "archive.tar.gz" = "archive.tar" := by decide

/-- The recognized image extensions of the tier-2 stem match (line 128). -/
def imageExts7 : List String := [".png", ".jpg", ".jpeg", ".gif", ".bmp", ".webp", ".svg"]

/-- The image extensions that may override the downloaded extension (line 163,
without `.svg`). -/
def imageExts6 : List String := [".png", ".jpg", ".jpeg", ".gif", ".bmp", ".webp"]

/-- An HTTP response from the logo API: status, the raw `content-type` header
(`""` when absent), and the body length. -/
structure HttpResponse where
  status : Nat
  contentTypeHeader : String
  contentLen : Nat
deriving DecidableEq, Repr

/-- Environment of the resolver: the regular files currently in the serving
directory, the HTTP client (`none` models a raised exception or timeout), and
the `mimetypes.guess_extension` table. -/
structure ImgEnv where
  files : List String
  httpGet : String → Option HttpResponse
  guessExtension : String → Option String

/-- `response.headers.get("content-type", "").split(";")[0].strip().lower()`. -/
def contentTypeOf (r : HttpResponse) : String :=
  pyLower (pyStrip (String.mk (r.contentTypeHeader.data.takeWhile (fun c => !(c = ';')))))

def clearbitUrl (normalized_stem : String) : String :=
  "https://logo.clearbit.com/" ++ normalized_stem ++ ".com"

/-- The tier-2 per-file check (lines 114–130): case-insensitive filename
match, or stem equal to the normalized stem with a recognized image
extension. -/
def tier2Match (requested_name normalized_stem : String) (f : String) : Bool :=
  pyLower f == pyLower requested_name ||
  (pyLower (pathStem f) == normalized_stem &&
    imageExts7.contains (pyLower (pathSuffix f)))

/-- The saved extension (lines 156–164): `mimetypes.guess_extension` with
`.png` default, `.jpe` replaced by `.jpg`, overridden by the requested
extension when that is a known image extension. -/
def chosenExt (env : ImgEnv) (content_type requested_ext : String) : String :=
  let ext0 := (env.guessExtension content_type).getD ".png"
  let ext1 := if ext0 == ".jpe" then ".jpg" else ext0
  if imageExts6.contains requested_ext then requested_ext else ext1

/-- Tier 3 (lines 135–184): the saved filename when the Clearbit fetch
produced a 200 response with an `image/*` content type and a non-empty body;
`none` when the fetch failed in any way. -/
def downloadResult (env : ImgEnv) (normalized_stem requested_ext : String) :
    Option String :=
  match env.httpGet (clearbitUrl normalized_stem) with
  | none => none
  | some resp =>
    if resp.status == 200 then
      if (contentTypeOf resp).startsWith "image/" && resp.contentLen != 0 then
        some (normalized_stem ++ chosenExt env (contentTypeOf resp) requested_ext)
      else none
    else none

/-- Writing a file into the directory listing (an overwrite keeps the name). -/
def saveFile (files : List String) (name : String) : List String :=
  if files.contains name then files else files ++ [name]

/-- The result of `find_or_create_file`: the returned path (`none` leads to
the 404 branch upstream) and the directory contents afterwards. -/
structure FindResult where
  result : Option String
  files : List String
deriving DecidableEq, Repr

/-- `find_or_create_file` from `src/image_processor.py` (lines 88–194):
(1) exact file, (2) case-insensitive filename/stem scan, (3) Clearbit
download saved to disk, (4) `hiring.png` fallback, else nothing. -/
def find_or_create_file (env : ImgEnv) (filename : String) : FindResult :=
  if env.files.contains filename then
    { result := some filename, files := env.files }
  else
    let requested_name := pathName filename
    let requested_ext := pyLower (pathSuffix requested_name)
    let normalized_stem := normalize_domain (pathStem requested_name)
    match env.files.find? (tier2Match requested_name normalized_stem) with
    | some f => { result := some f, files := env.files }
    | none =>
      match downloadResult env normalized_stem requested_ext with
      | some final_name =>
        { result := some final_name, files := saveFile env.files final_name }
      | none =>
        if env.files.contains "hiring.png" then
          { result := some "hiring.png", files := env.files }
        else { result := none, files := env.files }

/-- Responses of the ASGI entry point that matter here. -/
inductive HttpServe where
  | methodNotAllowed405
  | notFound404
  | fileResponse (path : String)
deriving DecidableEq, Repr

/-- `DynamicStaticFiles.__call__` (lines 48–86) for an HTTP scope: non-GET
is 405; an empty stripped path is 404; otherwise the resolver result is
served when it names an existing file, else 404. -/
def dynamic_static_call (env : ImgEnv) (method path : String) : HttpServe :=
  if method ≠ "GET" then HttpServe.methodNotAllowed405
  else
    let filename := String.mk (path.data.dropWhile (fun c => c = '/'))
    if filename = "" then HttpServe.notFound404
    else
      match (find_or_create_file env filename).result with
      | some p =>
        if (find_or_create_file env filename).files.contains p then
          HttpServe.fileResponse p
        else HttpServe.notFound404
      | none => HttpServe.notFound404

theorem saveFile_contains (files : List String) (name : String) :
    (saveFile files name).contains name = true := by
  unfold saveFile
  split
  · assumption
  · simp

/-- Claim C2: `find_or_create_file` tries exactly three tiers in order — the
exact file, a case-insensitive filename or normalized-stem match with a
recognized image extension, a Clearbit download saved to disk — and when all
three fail it falls back to `hiring.png` when that exists, the request
otherwise yielding a 404 response. -/
theorem find_or_create_file_spec (env : ImgEnv) (filename : String) :
    (env.files.contains filename = true →
      find_or_create_file env filename = { result := some filename, files := env.files }) ∧
    (∀ f, env.files.contains filename = false →
      env.files.find? (tier2Match (pathName filename)
        (normalize_domain (pathStem (pathName filename)))) = some f →
      find_or_create_file env filename = { result := some f, files := env.files }) ∧
    (∀ final_name, env.files.contains filename = false →
      env.files.find? (tier2Match (pathName filename)
        (normalize_domain (pathStem (pathName filename)))) = none →
      downloadResult env (normalize_domain (pathStem (pathName filename)))
        (pyLower (pathSuffix (pathName filename))) = some final_name →
      find_or_create_file env filename
          = { result := some final_name, files := saveFile env.files final_name } ∧
        (saveFile env.files final_name).contains final_name = true) ∧
    (env.files.contains filename = false →
      env.files.find? (tier2Match (pathName filename)
        (normalize_domain (pathStem (pathName filename)))) = none →
      downloadResult env (normalize_domain (pathStem (pathName filename)))
        (pyLower (pathSuffix (pathName filename))) = none →
      find_or_create_file env filename
        = { result := if env.files.contains "hiring.png" then some "hiring.png" else none,
            files := env.files }) ∧
    (∀ path, String.mk (path.data.dropWhile (fun c => c = '/')) ≠ "" →
      (find_or_create_file env
        (String.mk (path.data.dropWhile (fun c => c = '/')))).result = none →
      dynamic_static_call env "GET" path = HttpServe.notFound404) := by
  refine ⟨?_, ?_, ?_, ?_, ?_⟩
  · intro h
    unfold find_or_create_file
    rw [if_pos h]
  · intro f h hfind
    unfold find_or_create_file
    rw [if_neg (by simp at h ⊢; exact h)]
    simp only
    rw [hfind]
  · intro final_name h hfind hdl
    unfold find_or_create_file
    rw [if_neg (by simp at h ⊢; exact h)]
    simp only
    rw [hfind, hdl]
    exact ⟨rfl, saveFile_contains env.files final_name⟩
  · intro h hfind hdl
    unfold find_or_create_file
    rw [if_neg (by simp at h ⊢; exact h)]
    simp only
    rw [hfind, hdl]
    show (if env.files.contains "hiring.png" then
        ({ result := some "hiring.png", files := env.files } : FindResult)
      else { result := none, files := env.files }) = _
    split <;> rfl
  · intro path hne hnone
    unfold dynamic_static_call
    rw [if_neg (by simp)]
    simp only
    rw [if_neg hne, hnone]

/-- A concrete environment for the resolver witness: one stored file, no
network, no extension table. -/
def iEnv : ImgEnv :=
  { files := ["Acme.png", "hiring.png"], httpGet := fun _ => none,
    guessExtension := fun _ => none }

/-- Claim C2 witness: tier 1 serves an exactly-matching stored file. -/
theorem find_or_create_file_spec_witness :
    find_or_create_file iEnv "Acme.png"
      = { result := some "Acme.png", files := iEnv.files } :=
  (find_or_create_file_spec iEnv "Acme.png").1 (by decide)

end JobsAI
